import Mathlib

/-!
Shallow embedding of the GRIB2 reader (`GribReader` class of the repository's
single library source file) and verification of the frozen claims.

Modelling conventions, used throughout:

* The input `ArrayBuffer` is a `List Nat` of bytes; `DataView.getUint8` is
  `byteAt` (reads out of range return 0 here; every theorem that relies on a
  byte value stays within the modelled buffer).
* JavaScript 32-bit wrapping (`Int32Array` stores, `<<`, `|`) is explicit via
  `toInt32` / `toUint8` / `toUint32`.
* JavaScript floating-point numbers are idealised as exact rationals `ℚ`
  (for decoded field values and coordinates) or reals `ℝ` (for the
  trigonometric wind-direction path).  `Math.atan2`'s IEEE signed-zero
  behaviour, which is observable in the wind-direction computation, is
  modelled explicitly (`JsVal`, `ecmaAtan2`).
* Loops with data-dependent trip counts carry an explicit fuel argument or a
  well-founded measure; the `while (offset < length)` loop of `parse` is
  fuel-indexed so that its non-termination on a given input is expressible
  as `∀ fuel, run fuel = none`.
-/

/-- Two's-complement wrap of an integer to the signed 32-bit range, the effect
of a JavaScript `Int32Array` store or 32-bit bitwise operator. -/
def toInt32 (x : Int) : Int := (x + 2 ^ 31) % 2 ^ 32 - 2 ^ 31

/-- Two's-complement wrap to the signed 16-bit range (`DataView.getInt16`). -/
def toInt16 (x : Int) : Int := (x + 2 ^ 15) % 2 ^ 16 - 2 ^ 15

/-- Wrap to an unsigned byte, the effect of a `Uint8Array` store. -/
def toUint8 (x : Int) : Int := x % 2 ^ 8

/-- Wrap to an unsigned 32-bit value, the effect of a `Uint32Array` store. -/
def toUint32 (x : Int) : Int := x % 2 ^ 32

/-- Byte access, `DataView.getUint8(i)` on the input buffer. -/
def byteAt (buf : List Nat) (i : Nat) : Nat := buf.getD i 0

/-- Big-endian 16-bit read, `DataView.getUint16` (big-endian default). -/
def readU16 (buf : List Nat) (off : Nat) : Nat :=
  byteAt buf off * 2 ^ 8 + byteAt buf (off + 1)

/-- Big-endian 32-bit read, `DataView.getUint32`. -/
def readU32 (buf : List Nat) (off : Nat) : Nat :=
  byteAt buf off * 2 ^ 24 + byteAt buf (off + 1) * 2 ^ 16 +
    byteAt buf (off + 2) * 2 ^ 8 + byteAt buf (off + 3)

/-- Signed big-endian 32-bit read, `DataView.getInt32`. -/
def getInt32 (buf : List Nat) (off : Nat) : Int := toInt32 (readU32 buf off)

/-- Signed big-endian 16-bit read, `DataView.getInt16`. -/
def getInt16 (buf : List Nat) (off : Nat) : Int := toInt16 (readU16 buf off)

/-- The reader's `readUint64`: `getUint32(offset) * 0x100000000 + getUint32(offset+4)`. -/
def readUint64 (buf : List Nat) (off : Nat) : Nat :=
  readU32 buf off * 2 ^ 32 + readU32 buf (off + 4)

/-- Value of an IEEE-754 binary32 word as a rational (`DataView.getFloat32`).
Exponent 255 (infinities and NaNs, which have no rational counterpart) is
mapped to 0; no claim exercises that case. -/
def decodeFloat32 (w : Nat) : ℚ :=
  let sign : Nat := w / 2 ^ 31 % 2
  let ex : Nat := w / 2 ^ 23 % 2 ^ 8
  let frac : Nat := w % 2 ^ 23
  if ex = 255 then 0
  else
    let mag : ℚ :=
      if ex = 0 then (frac : ℚ) * (2 : ℚ) ^ (-(149 : ℤ))
      else ((2 : ℚ) ^ (23 : ℕ) + (frac : ℚ)) * (2 : ℚ) ^ ((ex : ℤ) - 150)
    if sign = 1 then -mag else mag

/-- Big-endian 32-bit read of a float field, `DataView.getFloat32`. -/
def getFloat32 (buf : List Nat) (off : Nat) : ℚ := decodeFloat32 (readU32 buf off)

/-! ## readBits

The source's `readBits(bitOffset, numberOfBits)` loop, with the absolute bit
position `pos` standing for `byteOffset * 8 + bitShift + bitsRead` (the two
agree because `byteOffset = ⌊bitOffset/8⌋` and `bitShift = bitOffset % 8`).
`(byte >> shift) & mask` is written as division and remainder on naturals, and
the 32-bit accumulation `(value << bitsToRead) | extracted` is
`toInt32 (value * 2^bitsToRead) + extracted`: the shifted value has zeroed low
bits, so bitwise or coincides with addition.  The fuel argument is the loop
counter bound; one pass consumes at least one bit, so `numberOfBits` fuel is
always enough. -/
def readBitsLoop (buf : List Nat) : Nat → Nat → Nat → Int → Int
  | 0, _, _, acc => acc
  | _ + 1, _, 0, acc => acc
  | fuel + 1, pos, r + 1, acc =>
    let currentBitShift := pos % 8
    let byte := byteAt buf (pos / 8)
    let bitsAvailable := 8 - currentBitShift
    let bitsToRead := min (r + 1) bitsAvailable
    let x : Int := ((byte / 2 ^ (bitsAvailable - bitsToRead)) % 2 ^ bitsToRead : Nat)
    readBitsLoop buf fuel (pos + bitsToRead) (r + 1 - bitsToRead)
      (toInt32 (acc * 2 ^ bitsToRead) + x)

/-- The source's `readBits`: bounds check
`Math.floor((bitOffset + numberOfBits - 1) / 8) >= byteLength` (floor division
on possibly negative integers, hence the `Int` cast), then the extraction
loop.  `none` models the thrown out-of-bounds `Error`. -/
def readBits (buf : List Nat) (bitOffset numberOfBits : Nat) : Option Int :=
  if ((bitOffset : Int) + numberOfBits - 1) / 8 ≥ (buf.length : Int) then none
  else some (readBitsLoop buf numberOfBits bitOffset numberOfBits 0)

/-- Specification-side view of one bit of the buffer: bit `p % 8` (MSB first)
of byte `p / 8`. -/
def bitAt (buf : List Nat) (p : Nat) : Nat :=
  buf.getD (p / 8) 0 / 2 ^ (7 - p % 8) % 2

/-- Specification-side big-endian value of the `m` bits starting at bit
position `pos`. -/
def bitsVal (buf : List Nat) (pos : Nat) : Nat → Nat
  | 0 => 0
  | m + 1 => bitsVal buf pos m * 2 + bitAt buf (pos + m)

/-! ## Section 3 and grid definition template 3.0 -/

/-- Result record of `parseGridTemplate0`.  Latitude/longitude fields are the
raw signed 32-bit values divided by 1e6, increments the raw unsigned 32-bit
values divided by 1e6, exactly as the source computes them (division is exact
here in `ℚ`). -/
structure GridTemplate0 where
  shapeOfEarth : Nat := 0
  scaleFactorOfRadiusOfSphericalEarth : Nat := 0
  scaledValueOfRadiusOfSphericalEarth : Nat := 0
  scaleFactorOfEarthMajorAxis : Nat := 0
  scaledValueOfEarthMajorAxis : Nat := 0
  scaleFactorOfEarthMinorAxis : Nat := 0
  scaledValueOfEarthMinorAxis : Nat := 0
  ni : Nat := 0
  nj : Nat := 0
  basicAngleOfInitialProductionDomain : Nat := 0
  subdivisionsOfBasicAngle : Nat := 0
  latitudeOfFirstGridPoint : ℚ := 0
  longitudeOfFirstGridPoint : ℚ := 0
  resolutionAndComponentFlags : Nat := 0
  latitudeOfLastGridPoint : ℚ := 0
  longitudeOfLastGridPoint : ℚ := 0
  latitudeOfLastGridPointFromFile : ℚ := 0
  longitudeOfLastGridPointFromFile : ℚ := 0
  iDirectionIncrement : ℚ := 0
  jDirectionIncrement : ℚ := 0
  scanningMode : Nat := 0
deriving DecidableEq, Repr

/-- The source's `parseGridTemplate0(offset)`: field reads at the
template-relative offsets of the source (`ni` at `offset+16`, `nj` at
`offset+20`, first point at `offset+32`/`offset+36`, increments at
`offset+49`/`offset+53`, scanning mode at `offset+57`), plus the recomputed
last grid point.  `(ni - 1)` is JavaScript number arithmetic, hence the
subtraction is taken in `ℚ`, not truncated at zero. -/
def parseGridTemplate0 (buf : List Nat) (offset : Nat) : GridTemplate0 :=
  let ni := readU32 buf (offset + 16)
  let nj := readU32 buf (offset + 20)
  let latFirst : ℚ := (getInt32 buf (offset + 32) : ℚ) / 1000000
  let lonFirst : ℚ := (getInt32 buf (offset + 36) : ℚ) / 1000000
  let iIncrement : ℚ := (readU32 buf (offset + 49) : ℚ) / 1000000
  let jIncrement : ℚ := (readU32 buf (offset + 53) : ℚ) / 1000000
  let scanningMode := byteAt buf (offset + 57)
  let latLastFromFile : ℚ := (getInt32 buf (offset + 41) : ℚ) / 1000000
  let lonLastFromFile : ℚ := (getInt32 buf (offset + 45) : ℚ) / 1000000
  let iSign : ℚ := if scanningMode &&& 128 = 0 then 1 else -1
  let jSign : ℚ := if scanningMode &&& 64 ≠ 0 then 1 else -1
  let lonLast : ℚ := lonFirst + ((ni : ℚ) - 1) * iIncrement * iSign
  let latLast : ℚ := latFirst + ((nj : ℚ) - 1) * jIncrement * jSign
  { shapeOfEarth := byteAt buf offset
    scaleFactorOfRadiusOfSphericalEarth := byteAt buf (offset + 1)
    scaledValueOfRadiusOfSphericalEarth := readU32 buf (offset + 2)
    scaleFactorOfEarthMajorAxis := byteAt buf (offset + 6)
    scaledValueOfEarthMajorAxis := readU32 buf (offset + 7)
    scaleFactorOfEarthMinorAxis := byteAt buf (offset + 11)
    scaledValueOfEarthMinorAxis := readU32 buf (offset + 12)
    ni := ni
    nj := nj
    basicAngleOfInitialProductionDomain := readU32 buf (offset + 24)
    subdivisionsOfBasicAngle := readU32 buf (offset + 28)
    latitudeOfFirstGridPoint := latFirst
    longitudeOfFirstGridPoint := lonFirst
    resolutionAndComponentFlags := byteAt buf (offset + 40)
    latitudeOfLastGridPoint := latLast
    longitudeOfLastGridPoint := lonLast
    latitudeOfLastGridPointFromFile := latLastFromFile
    longitudeOfLastGridPointFromFile := lonLastFromFile
    iDirectionIncrement := iIncrement
    jDirectionIncrement := jIncrement
    scanningMode := scanningMode }

/-- Parsed §3 record of `parseSection3`. -/
structure Section3 where
  length : Nat
  source : Nat
  numberOfDataPoints : Nat
  numberOfOctetsForOptional : Nat
  interpretationOfOptional : Nat
  gridDefinitionTemplateNumber : Nat
  gridTemplate : Option GridTemplate0
deriving DecidableEq, Repr

/-- The source's `parseSection3`: header fields, then the template-0 parse at
`offset + 14` when the grid definition template number is 0, and the cursor
advanced by the section length. -/
def parseSection3 (buf : List Nat) (offset : Nat) : Section3 × Nat :=
  let length := readU32 buf offset
  let tmplNum := readU16 buf (offset + 12)
  ({ length := length
     source := byteAt buf (offset + 5)
     numberOfDataPoints := readU32 buf (offset + 6)
     numberOfOctetsForOptional := byteAt buf (offset + 10)
     interpretationOfOptional := byteAt buf (offset + 11)
     gridDefinitionTemplateNumber := tmplNum
     gridTemplate := if tmplNum = 0 then some (parseGridTemplate0 buf (offset + 14)) else none },
   offset + length)

/-! ## Section 5 templates and the two decoders -/

/-- Template 5.0 record stored by `parseSection5` (simple packing). -/
structure SimpleTemplate where
  referenceValue : ℚ := 0
  binaryScaleFactor : Int := 0
  decimalScaleFactor : Int := 0
  numberOfBits : Nat := 0
  typeOfOriginalFieldValues : Nat := 0
deriving DecidableEq, Repr

/-- Template 5.2 / 5.3 record stored by `parseSection5` (complex packing;
for template 5.2 the source sets `orderOfSpatialDifferencing` to 0 and leaves
`numberOfOctetsExtraDescriptors` undefined, which the decoder coalesces to 0
with `|| 0`, so it is 0 here). -/
structure ComplexTemplate where
  referenceValue : ℚ := 0
  binaryScaleFactor : Int := 0
  decimalScaleFactor : Int := 0
  numberOfBits : Nat := 0
  typeOfOriginalFieldValues : Nat := 0
  groupSplittingMethod : Nat := 0
  missingValueManagement : Nat := 0
  primaryMissingValue : ℚ := 0
  secondaryMissingValue : ℚ := 0
  numberOfGroups : Nat := 0
  referenceForGroupWidths : Nat := 0
  numberOfBitsForGroupWidths : Nat := 0
  referenceForGroupLengths : Nat := 0
  lengthIncrementForGroupLengths : Nat := 0
  trueLengthOfLastGroup : Nat := 0
  numberOfBitsForScaledGroupLengths : Nat := 0
  orderOfSpatialDifferencing : Nat := 0
  numberOfOctetsExtraDescriptors : Nat := 0
deriving DecidableEq, Repr

/-- The source's `decodeSimplePacking`: with zero bits per value the array is
filled with the bare reference value (no decimal scaling - this is the
behaviour under test in one claim); otherwise each of the `numberOfPoints`
values is `bits` consecutive bits from `offset * 8` on, scaled by
`(R + X * 2^E) * 10^(-D)`.  A failed bit read models the exception the source
lets escape; `dataLength` is accepted and unused exactly as in the source. -/
def decodeSimplePacking (buf : List Nat) (offset dataLength : Nat)
    (template : SimpleTemplate) (numberOfPoints : Nat) : Option (List ℚ) :=
  if template.numberOfBits = 0 then
    some (List.replicate numberOfPoints template.referenceValue)
  else
    let R := template.referenceValue
    let decimalScale : ℚ := (10 : ℚ) ^ (-template.decimalScaleFactor)
    let binaryScale : ℚ := (2 : ℚ) ^ template.binaryScaleFactor
    (List.range numberOfPoints).mapM fun i =>
      (readBits buf (offset * 8 + i * template.numberOfBits) template.numberOfBits).map
        fun packedValue => (R + (packedValue : ℚ) * binaryScale) * decimalScale

/-- Spatial-differencing header of the complex decoder (template 5.3 path):
`h1` (and `h2` when the order is 2) read unsigned over `numExtraOctets * 8`
bits, then the overall minimum in sign-magnitude form - one sign bit and a
magnitude of `nbitsd - 1` bits, negated when the sign bit is 1.  Returns
`(h1, h2, overallMin, next bit position)`.  For an extra-descriptor count
other than 1 or 2 the source leaves everything 0 and the cursor unmoved. -/
def readSpatialDiffHeader (buf : List Nat) (offset : Nat)
    (orderOfSpatialDiff numExtraOctets : Nat) :
    Option (Int × Int × Int × Nat) :=
  if numExtraOctets = 1 ∨ numExtraOctets = 2 then
    let nbitsd := numExtraOctets * 8
    do
      let h1 ← readBits buf (offset * 8) nbitsd
      let pos1 := offset * 8 + nbitsd
      let (h2, pos2) ←
        if orderOfSpatialDiff = 2 then
          (readBits buf pos1 nbitsd).map fun h2 => (h2, pos1 + nbitsd)
        else
          some ((0 : Int), pos1)
      let isign ← readBits buf pos2 1
      let minsdMagnitude ← readBits buf (pos2 + 1) (nbitsd - 1)
      let overallMin := if isign = 1 then -minsdMagnitude else minsdMagnitude
      pure (h1, h2, overallMin, pos2 + 1 + (nbitsd - 1))
  else
    some (0, 0, 0, offset * 8)

/-- Sequential fixed-width reads for the group reference / width / length
metadata arrays; returns the values and the bit position after the array. -/
def readSeq (buf : List Nat) (width : Nat) : Nat → Nat → Option (List Int × Nat)
  | _, 0 => some ([], 0)
  | bitOffset, 1 => (readBits buf bitOffset width).map fun v => ([v], bitOffset + width)
  | bitOffset, c + 2 => do
    let v ← readBits buf bitOffset width
    let (vs, e) ← readSeq buf width (bitOffset + width) (c + 1)
    pure (v :: vs, e)

/-- Byte realignment after a metadata array: the source adds
`8 - bitsUsed % 8` when `bitsUsed` is not a multiple of 8. -/
def alignAfter (bitOffset bitsUsed : Nat) : Nat :=
  if bitsUsed % 8 = 0 then bitOffset else bitOffset + (8 - bitsUsed % 8)

/-- Inner value loop of group unpacking for a group of nonzero width: reads up
to `len` values into at most `slots` remaining points; stops early returning
`true` when the next read would pass `maxBit` (the truncation-tolerance path,
after which the caller zero-fills).  Values go through the `Int32Array` store
wrap. -/
def unpackPacked (buf : List Nat) (maxBit : Nat) (ref : Int) (width : Nat) :
    Nat → Nat → Nat → Option (List Int × Nat × Bool)
  | 0, _, bo => some ([], bo, false)
  | _ + 1, 0, bo => some ([], bo, false)
  | len + 1, slots + 1, bo =>
    if maxBit < bo + width then some ([], bo, true)
    else do
      let packedValue ← readBits buf bo width
      let (rest, bo2, fl) ← unpackPacked buf maxBit ref width len slots (bo + width)
      pure (toInt32 (ref + packedValue) :: rest, bo2, fl)

/-- Group unpacking loop (`Step 5` of the source): walks the per-group
`(reference, width, length)` triples emitting `slots` integer values in total;
zero-width groups emit their reference, exhausted input zero-fills, and left
over slots stay at the `Int32Array` initial value 0. -/
def unpackLoop (buf : List Nat) (maxBit : Nat) :
    List (Int × Nat × Nat) → Nat → Nat → Option (List Int)
  | [], _, slots => some (List.replicate slots 0)
  | (ref, w, len) :: gs, bo, slots =>
    if slots = 0 then some []
    else if w ≠ 0 then do
      let (vals, bo2, exceeded) ← unpackPacked buf maxBit ref w len slots bo
      if exceeded then pure (vals ++ List.replicate (slots - vals.length) 0)
      else do
        let rest ← unpackLoop buf maxBit gs bo2 (slots - vals.length)
        pure (vals ++ rest)
    else
      let m := min len slots
      do
        let rest ← unpackLoop buf maxBit gs bo (slots - m)
        pure (List.replicate m (toInt32 ref) ++ rest)

/-- One step of first-order spatial-differencing reversal, carrying the
already-reversed previous value: the source stores `ifld[n] + overallMin` and
then adds `ifld[n-1]`, each store wrapping to 32 bits. -/
def diff1Aux (gmin : Int) : Int → List Int → List Int
  | _, [] => []
  | prev, x :: xs =>
    let y := toInt32 (toInt32 (x + gmin) + prev)
    y :: diff1Aux gmin y xs

/-- One step of second-order reversal, carrying the two previous reversed
values (`p1` the nearer one): the source stores `ifld[n] + overallMin`, then
`ifld[n] + 2*ifld[n-1] - ifld[n-2]`. -/
def diff2Aux (gmin : Int) : Int → Int → List Int → List Int
  | _, _, [] => []
  | p2, p1, x :: xs =>
    let y := toInt32 (toInt32 (x + gmin) + 2 * p1 - p2)
    y :: diff2Aux gmin p1 y xs

/-- Step 6 of the source's `decodeComplexPacking`: spatial-differencing
reversal over the unpacked integer field.  Order 1 overwrites `ifld[0]` with
`h1`; order 2 overwrites `ifld[0]`, `ifld[1]` with `h1`, `h2` (an
out-of-range `Int32Array` store is silently dropped, hence the one-point
case); other orders leave the field unchanged. -/
def spatialDiffReverse (order : Nat) (h1 h2 gmin : Int) (l : List Int) : List Int :=
  if order = 1 then
    match l with
    | [] => []
    | _ :: xs => toInt32 h1 :: diff1Aux gmin (toInt32 h1) xs
  else if order = 2 then
    match l with
    | [] => []
    | [_] => [toInt32 h1]
    | _ :: _ :: xs => toInt32 h1 :: toInt32 h2 :: diff2Aux gmin (toInt32 h1) (toInt32 h2) xs
  else l

/-- The source's `decodeComplexPacking` without its `try`/`catch`: spatial
differencing header, the three byte-aligned metadata arrays, group unpacking,
differencing reversal and final scaling.  `none` is a thrown bit-read error. -/
def decodeComplexPackingO (buf : List Nat) (offset dataLength : Nat)
    (template : ComplexTemplate) (numberOfPoints : Nat) : Option (List ℚ) := do
  let R := template.referenceValue
  let decimalScale : ℚ := (10 : ℚ) ^ (-template.decimalScaleFactor)
  let binaryScale : ℚ := (2 : ℚ) ^ template.binaryScaleFactor
  let numberOfGroups := template.numberOfGroups
  let nbitsgref := template.numberOfBits
  let nbitsgwidth := template.numberOfBitsForGroupWidths
  let nbitsglen := template.numberOfBitsForScaledGroupLengths
  let orderOfSpatialDiff := template.orderOfSpatialDifferencing
  let numExtraOctets := template.numberOfOctetsExtraDescriptors
  let (h1, h2, overallMin, bitOffset0) ←
    if 0 < orderOfSpatialDiff ∧ 0 < numExtraOctets then
      readSpatialDiffHeader buf offset orderOfSpatialDiff numExtraOctets
    else
      some ((0 : Int), (0 : Int), (0 : Int), offset * 8)
  let maxBitOffset := (offset + dataLength) * 8
  if numberOfGroups = 0 then
    pure (List.replicate numberOfPoints (R * decimalScale))
  else do
    let (grefRaw, bitOffset1) ←
      if 0 < nbitsgref then
        (readSeq buf nbitsgref bitOffset0 numberOfGroups).map fun (vs, e) =>
          (vs, alignAfter e (numberOfGroups * nbitsgref))
      else
        some (List.replicate numberOfGroups (0 : Int), bitOffset0)
    let gref := grefRaw.map toInt32
    let (gwidthRaw, bitOffset2) ←
      if 0 < nbitsgwidth then
        (readSeq buf nbitsgwidth bitOffset1 numberOfGroups).map fun (vs, e) =>
          (vs, alignAfter e (numberOfGroups * nbitsgwidth))
      else
        some (List.replicate numberOfGroups (0 : Int), bitOffset1)
    let gwidth := gwidthRaw.map fun w =>
      (toUint8 (toUint8 w + template.referenceForGroupWidths)).toNat
    let (glenRaw, bitOffset3) ←
      if 0 < nbitsglen then
        (readSeq buf nbitsglen bitOffset2 numberOfGroups).map fun (vs, e) =>
          (vs, alignAfter e (numberOfGroups * nbitsglen))
      else
        some (List.replicate numberOfGroups (0 : Int), bitOffset2)
    let glenScaled := glenRaw.map fun g =>
      (toUint32 (toUint32 g * template.lengthIncrementForGroupLengths +
        template.referenceForGroupLengths)).toNat
    let glen := glenScaled.take (numberOfGroups - 1) ++ [template.trueLengthOfLastGroup]
    let groups := gref.zip (gwidth.zip glen)
    let ifld0 ← unpackLoop buf maxBitOffset groups bitOffset3 numberOfPoints
    let ifld := spatialDiffReverse orderOfSpatialDiff h1 h2 overallMin ifld0
    pure (ifld.map fun v => (R + (v : ℚ) * binaryScale) * decimalScale)

/-- The source's `decodeComplexPacking` with its `catch`: a thrown error is
converted into an all-zero field of the requested length. -/
def decodeComplexPacking (buf : List Nat) (offset dataLength : Nat)
    (template : ComplexTemplate) (numberOfPoints : Nat) : List ℚ :=
  (decodeComplexPackingO buf offset dataLength template numberOfPoints).getD
    (List.replicate numberOfPoints 0)

/-! ## Message walking -/

/-- Error kinds thrown while parsing (`throw new Error(...)` in the source).
`fuelExhausted` is a modelling artefact of the fuel-indexed section loop and
occurs in no theorem. -/
inductive GribError where
  | invalidSignature
  | expectedSection1
  | unknownSection (n : Nat)
  | invalidEndSection
  | fuelExhausted
deriving DecidableEq, Repr

/-- Result of a computation that can throw; stands for JavaScript exception
flow (`Except` is avoided only so that equality stays decidable). -/
inductive PResult (α : Type) where
  | ok : α → PResult α
  | err : GribError → PResult α
deriving DecidableEq, Repr

instance : Monad PResult where
  pure := .ok
  bind x f := match x with
    | .ok a => f a
    | .err e => .err e

/-- Parsed §0 record. -/
structure Section0 where
  discipline : Nat
  edition : Nat
  totalLength : Nat
deriving DecidableEq, Repr

/-- Parsed §1 record. -/
structure Section1 where
  length : Nat
  centreId : Nat
  subCentreId : Nat
  masterTableVersion : Nat
  localTableVersion : Nat
  significanceOfReferenceTime : Nat
  year : Nat
  month : Nat
  day : Nat
  hour : Nat
  minute : Nat
  second : Nat
  productionStatus : Nat
  typeOfData : Nat
deriving DecidableEq, Repr

/-- Parsed §2 record (local-use bytes kept as a slice). -/
structure Section2 where
  length : Nat
  localData : List Nat
deriving DecidableEq, Repr

/-- Parsed §4 record: the raw template byte slice from `offset + 9`. -/
structure Section4 where
  length : Nat
  numberOfCoordinateValues : Nat
  productDefinitionTemplateNumber : Nat
  templateData : List Nat
deriving DecidableEq, Repr

/-- Template payload stored by `parseSection5` (templates 0, 2, 3; others
leave the field absent). -/
inductive Tmpl5Data where
  | simple : SimpleTemplate → Tmpl5Data
  | complex : ComplexTemplate → Tmpl5Data
deriving DecidableEq, Repr

/-- Parsed §5 record. -/
structure Section5 where
  length : Nat
  numberOfDataPoints : Nat
  dataRepresentationTemplateNumber : Nat
  template : Option Tmpl5Data
deriving DecidableEq, Repr

/-- Parsed §6 record. -/
structure Section6 where
  length : Nat
  bitMapIndicator : Nat
  bitmap : Option (List Nat)
deriving DecidableEq, Repr

/-- Parsed §7 record: the decoded field, or the preserved raw payload for
unsupported templates. -/
structure Section7 where
  length : Nat
  data : Option (List ℚ)
  rawData : Option (List Nat)
deriving DecidableEq, Repr

/-- A parsed message (`discipline`/`edition`/`totalLength` from §0 plus the
collected sections). -/
structure Message where
  discipline : Nat
  edition : Nat
  totalLength : Nat
  section1 : Section1
  section2 : Option Section2 := none
  section3 : Option Section3 := none
  section4 : Option Section4 := none
  section5 : Option Section5 := none
  section6 : Option Section6 := none
  section7 : Option Section7 := none
deriving DecidableEq, Repr

/-- The source's `parseSection0`: `null` (here `none`) when fewer than 16
bytes remain, a thrown error when the signature is not `GRIB`, otherwise the
indicator fields, with the cursor advanced by 16. -/
def parseSection0 (buf : List Nat) (offset : Nat) :
    PResult (Option (Section0 × Nat)) :=
  if buf.length < offset + 16 then .ok none
  else if byteAt buf offset = 71 ∧ byteAt buf (offset + 1) = 82 ∧
      byteAt buf (offset + 2) = 73 ∧ byteAt buf (offset + 3) = 66 then
    .ok (some
      ({ discipline := byteAt buf (offset + 6)
         edition := byteAt buf (offset + 7)
         totalLength := readUint64 buf (offset + 8) }, offset + 16))
  else .err .invalidSignature

/-- The source's `parseSection1`: section number must be 1; fields are read at
fixed offsets and the cursor advances by the declared length. -/
def parseSection1 (buf : List Nat) (offset : Nat) : PResult (Section1 × Nat) :=
  let length := readU32 buf offset
  if byteAt buf (offset + 4) ≠ 1 then .err .expectedSection1
  else .ok
    ({ length := length
       centreId := readU16 buf (offset + 5)
       subCentreId := readU16 buf (offset + 7)
       masterTableVersion := byteAt buf (offset + 9)
       localTableVersion := byteAt buf (offset + 10)
       significanceOfReferenceTime := byteAt buf (offset + 11)
       year := readU16 buf (offset + 12)
       month := byteAt buf (offset + 14)
       day := byteAt buf (offset + 15)
       hour := byteAt buf (offset + 16)
       minute := byteAt buf (offset + 17)
       second := byteAt buf (offset + 18)
       productionStatus := byteAt buf (offset + 19)
       typeOfData := byteAt buf (offset + 20) }, offset + length)

/-- The source's `parseSection2` (local use): keeps the `length - 5` payload
bytes as a slice. -/
def parseSection2 (buf : List Nat) (offset : Nat) : Section2 × Nat :=
  let length := readU32 buf offset
  ({ length := length
     localData := ((buf.drop (offset + 5)).take (length - 5)) }, offset + length)

/-- The source's `parseSection4`: header fields plus the raw template bytes
from `offset + 9`. -/
def parseSection4 (buf : List Nat) (offset : Nat) : Section4 × Nat :=
  let length := readU32 buf offset
  ({ length := length
     numberOfCoordinateValues := readU16 buf (offset + 5)
     productDefinitionTemplateNumber := readU16 buf (offset + 7)
     templateData := ((buf.drop (offset + 9)).take (length - 9)) }, offset + length)

/-- The source's `parseSection5`: the shared header plus the template record
for data representation templates 0, 2 and 3 (template 2 gets spatial
differencing order 0 and, effectively, an extra-descriptor count of 0). -/
def parseSection5 (buf : List Nat) (offset : Nat) : Section5 × Nat :=
  let length := readU32 buf offset
  let tmplNum := readU16 buf (offset + 9)
  let base : ComplexTemplate :=
    { referenceValue := getFloat32 buf (offset + 11)
      binaryScaleFactor := getInt16 buf (offset + 15)
      decimalScaleFactor := getInt16 buf (offset + 17)
      numberOfBits := byteAt buf (offset + 19)
      typeOfOriginalFieldValues := byteAt buf (offset + 20)
      groupSplittingMethod := byteAt buf (offset + 21)
      missingValueManagement := byteAt buf (offset + 22)
      primaryMissingValue := getFloat32 buf (offset + 23)
      secondaryMissingValue := getFloat32 buf (offset + 27)
      numberOfGroups := readU32 buf (offset + 31)
      referenceForGroupWidths := byteAt buf (offset + 35)
      numberOfBitsForGroupWidths := byteAt buf (offset + 36)
      referenceForGroupLengths := readU32 buf (offset + 37)
      lengthIncrementForGroupLengths := byteAt buf (offset + 41)
      trueLengthOfLastGroup := readU32 buf (offset + 42)
      numberOfBitsForScaledGroupLengths := byteAt buf (offset + 46)
      orderOfSpatialDifferencing := 0
      numberOfOctetsExtraDescriptors := 0 }
  let template : Option Tmpl5Data :=
    if tmplNum = 0 then
      some (.simple
        { referenceValue := getFloat32 buf (offset + 11)
          binaryScaleFactor := getInt16 buf (offset + 15)
          decimalScaleFactor := getInt16 buf (offset + 17)
          numberOfBits := byteAt buf (offset + 19)
          typeOfOriginalFieldValues := byteAt buf (offset + 20) })
    else if tmplNum = 2 then some (.complex base)
    else if tmplNum = 3 then
      some (.complex { base with
        orderOfSpatialDifferencing := byteAt buf (offset + 47)
        numberOfOctetsExtraDescriptors := byteAt buf (offset + 48) })
    else none
  ({ length := length
     numberOfDataPoints := readU32 buf (offset + 5)
     dataRepresentationTemplateNumber := tmplNum
     template := template }, offset + length)

/-- The source's `parseSection6`: bitmap kept when the indicator is 0. -/
def parseSection6 (buf : List Nat) (offset : Nat) : Section6 × Nat :=
  let length := readU32 buf offset
  let ind := byteAt buf (offset + 5)
  ({ length := length
     bitMapIndicator := ind
     bitmap := if ind = 0 then some ((buf.drop (offset + 6)).take (length - 6)) else none },
   offset + length)

/-- The source's `parseSection7`: dispatch on the §5 template; a bit-read
error from `decodeSimplePacking` escapes (the complex decoder catches its own
and yields zeros). -/
def parseSection7 (buf : List Nat) (offset : Nat) (section5 : Option Section5) :
    PResult (Section7 × Nat) :=
  let length := readU32 buf offset
  match section5 with
  | some s5 =>
    match s5.template with
    | some (.simple t) =>
      if s5.dataRepresentationTemplateNumber = 0 then
        match decodeSimplePacking buf (offset + 5) (length - 5) t s5.numberOfDataPoints with
        | some d => .ok ({ length := length, data := some d, rawData := none }, offset + length)
        | none => .err .invalidSignature
      else
        .ok ({ length := length, data := none,
               rawData := some ((buf.drop (offset + 5)).take (length - 5)) }, offset + length)
    | some (.complex t) =>
      if s5.dataRepresentationTemplateNumber = 2 ∨ s5.dataRepresentationTemplateNumber = 3 then
        .ok ({ length := length,
               data := some (decodeComplexPacking buf (offset + 5) (length - 5) t
                 s5.numberOfDataPoints),
               rawData := none }, offset + length)
      else
        .ok ({ length := length, data := none,
               rawData := some ((buf.drop (offset + 5)).take (length - 5)) }, offset + length)
    | none =>
      .ok ({ length := length, data := none,
             rawData := some ((buf.drop (offset + 5)).take (length - 5)) }, offset + length)
  | none =>
    .ok ({ length := length, data := none,
           rawData := some ((buf.drop (offset + 5)).take (length - 5)) }, offset + length)

/-- The source's `parseSection8`: signature check and a 4-byte advance. -/
def parseSection8 (buf : List Nat) (offset : Nat) : PResult Nat :=
  if byteAt buf offset = 55 ∧ byteAt buf (offset + 1) = 55 ∧
      byteAt buf (offset + 2) = 55 ∧ byteAt buf (offset + 3) = 55 then
    .ok (offset + 4)
  else .err .invalidEndSection

/-- The section loop of `parseMessage`: while the cursor is before the end of
the message, peek for `"7777"`, otherwise dispatch on the section-number byte
at `offset + 4`.  Fuel bounds the iteration count (a 0-length section could
loop forever in the source). -/
def sectionLoop (buf : List Nat) (msgEnd : Nat) :
    Nat → Nat → Message → PResult (Message × Nat)
  | 0, _, _ => .err .fuelExhausted
  | fuel + 1, offset, m =>
    if offset < msgEnd then
      if byteAt buf offset = 55 ∧ byteAt buf (offset + 1) = 55 ∧
          byteAt buf (offset + 2) = 55 ∧ byteAt buf (offset + 3) = 55 then
        match parseSection8 buf offset with
        | .ok offset2 => .ok (m, offset2)
        | .err e => .err e
      else
        match byteAt buf (offset + 4) with
        | 2 =>
          let (s, offset2) := parseSection2 buf offset
          sectionLoop buf msgEnd fuel offset2 { m with section2 := some s }
        | 3 =>
          let (s, offset2) := parseSection3 buf offset
          sectionLoop buf msgEnd fuel offset2 { m with section3 := some s }
        | 4 =>
          let (s, offset2) := parseSection4 buf offset
          sectionLoop buf msgEnd fuel offset2 { m with section4 := some s }
        | 5 =>
          let (s, offset2) := parseSection5 buf offset
          sectionLoop buf msgEnd fuel offset2 { m with section5 := some s }
        | 6 =>
          let (s, offset2) := parseSection6 buf offset
          sectionLoop buf msgEnd fuel offset2 { m with section6 := some s }
        | 7 =>
          match parseSection7 buf offset m.section5 with
          | .ok (s, offset2) => sectionLoop buf msgEnd fuel offset2 { m with section7 := some s }
          | .err e => .err e
        | n => .err (.unknownSection n)
    else .ok (m, offset)

/-- The source's `parseMessage`: §0 (`none` when it returns `null`), §1, then
the section loop up to `messageStart + totalLength`. -/
def parseMessage (buf : List Nat) (fuel offset : Nat) :
    PResult (Option (Message × Nat)) := do
  match ← parseSection0 buf offset with
  | none => pure none
  | some (s0, offset1) => do
    let (s1, offset2) ← parseSection1 buf offset1
    let m0 : Message :=
      { discipline := s0.discipline
        edition := s0.edition
        totalLength := s0.totalLength
        section1 := s1 }
    let (m, offset3) ← sectionLoop buf (offset + s0.totalLength) fuel offset2 m0
    pure (some (m, offset3))

/-- The `while (this.offset < this.buffer.byteLength)` loop of `parse`: a
thrown error is caught and parsing stops with the messages collected so far;
a `null` message is skipped with the cursor unchanged - exactly as in the
source, where that leaves the loop state unmodified.  The outer fuel counts
loop iterations; `none` means the loop is still running after `ofuel`
iterations, so `∀ ofuel, ... = none` states non-termination. -/
def parseLoop (buf : List Nat) (ifuel : Nat) :
    Nat → Nat → List Message → Option (List Message)
  | 0, _, _ => none
  | ofuel + 1, offset, acc =>
    if offset < buf.length then
      match parseMessage buf ifuel offset with
      | .err _ => some acc.reverse
      | .ok none => parseLoop buf ifuel ofuel offset acc
      | .ok (some (m, offset2)) => parseLoop buf ifuel ofuel offset2 (m :: acc)
    else some acc.reverse

/-- The source's `parse()`, fuel-indexed: starts at offset 0 with no messages
collected. -/
def parse (buf : List Nat) (ofuel ifuel : Nat) : Option (List Message) :=
  parseLoop buf ifuel ofuel 0 []

/-! ## getData: coordinate arrays, longitude normalisation, metadata bounds -/

/-- Sign multiplier for the i direction in `getData`:
`(scanningMode & 0x80) === 0 ? 1 : -1`. -/
def iMultiplier (grid : GridTemplate0) : ℚ :=
  if grid.scanningMode &&& 128 = 0 then 1 else -1

/-- Sign multiplier for the j direction in `getData`:
`(scanningMode & 0x40) !== 0 ? 1 : -1`. -/
def jMultiplier (grid : GridTemplate0) : ℚ :=
  if grid.scanningMode &&& 64 ≠ 0 then 1 else -1

/-- The latitude array built by `getData`'s double loop:
`lat[j*ni+i] = lat_first + j * j_increment * j_multiplier`. -/
def latArray (grid : GridTemplate0) : List ℚ :=
  (List.range grid.nj).flatMap fun (j : ℕ) =>
    (List.range grid.ni).map fun (_ : ℕ) =>
      grid.latitudeOfFirstGridPoint + (j : ℚ) * grid.jDirectionIncrement * jMultiplier grid

/-- The longitude array built by `getData`'s double loop:
`lng[j*ni+i] = lon_first + i * i_increment * i_multiplier`. -/
def lngArray (grid : GridTemplate0) : List ℚ :=
  (List.range grid.nj).flatMap fun (_ : ℕ) =>
    (List.range grid.ni).map fun (i : ℕ) =>
      grid.longitudeOfFirstGridPoint + (i : ℚ) * grid.iDirectionIncrement * iMultiplier grid

/-- The `longitudeFormat` option of `getData`. -/
inductive LngFormat where
  | preserve
  | zeroTo360
  | neg180To180
deriving DecidableEq, Repr

/-- The `while (lng[i] >= 360) lng[i] -= 360` loop of the 0-360 mode. -/
def sub360 (q : ℚ) : ℚ :=
  if h : 360 ≤ q then sub360 (q - 360) else q
termination_by (⌊q / 360⌋).toNat
decreasing_by
  have h1 : (1 : ℤ) ≤ ⌊q / 360⌋ := by
    rw [Int.le_floor]; push_cast; linarith
  have h2 : ⌊(q - 360) / 360⌋ = ⌊q / 360⌋ - 1 := by
    have h3 : (q - 360) / 360 = q / 360 - ((1 : ℤ) : ℚ) := by push_cast; ring
    rw [h3, Int.floor_sub_int]
  omega

/-- The `while (lng[i] < 0) lng[i] += 360` loop of the 0-360 mode. -/
def add360 (q : ℚ) : ℚ :=
  if h : q < 0 then add360 (q + 360) else q
termination_by (⌈-q / 360⌉).toNat
decreasing_by
  have h1 : (1 : ℤ) ≤ ⌈-q / 360⌉ := by
    have h4 : ((0 : ℤ) : ℚ) < -q / 360 := by push_cast; linarith
    have h5 := Int.lt_ceil.mpr h4
    omega
  have h2 : ⌈-(q + 360) / 360⌉ = ⌈-q / 360⌉ - 1 := by
    have h3 : -(q + 360) / 360 = -q / 360 - ((1 : ℤ) : ℚ) := by push_cast; ring
    rw [h3, Int.ceil_sub_int]
  omega

/-- The `while (lng[i] > 180) lng[i] -= 360` loop of the -180-180 mode. -/
def subHigh (q : ℚ) : ℚ :=
  if h : 180 < q then subHigh (q - 360) else q
termination_by (⌈q / 360⌉).toNat
decreasing_by
  have h1 : (1 : ℤ) ≤ ⌈q / 360⌉ := by
    have h4 : ((0 : ℤ) : ℚ) < q / 360 := by push_cast; linarith
    have h5 := Int.lt_ceil.mpr h4
    omega
  have h2 : ⌈(q - 360) / 360⌉ = ⌈q / 360⌉ - 1 := by
    have h3 : (q - 360) / 360 = q / 360 - ((1 : ℤ) : ℚ) := by push_cast; ring
    rw [h3, Int.ceil_sub_int]
  omega

/-- The `while (lng[i] <= -180) lng[i] += 360` loop of the -180-180 mode. -/
def addLow (q : ℚ) : ℚ :=
  if h : q ≤ -180 then addLow (q + 360) else q
termination_by (⌈-q / 360⌉).toNat
decreasing_by
  have h1 : (1 : ℤ) ≤ ⌈-q / 360⌉ := by
    have h4 : ((0 : ℤ) : ℚ) < -q / 360 := by push_cast; linarith
    have h5 := Int.lt_ceil.mpr h4
    omega
  have h2 : ⌈-(q + 360) / 360⌉ = ⌈-q / 360⌉ - 1 := by
    have h3 : -(q + 360) / 360 = -q / 360 - ((1 : ℤ) : ℚ) := by push_cast; ring
    rw [h3, Int.ceil_sub_int]
  omega

/-- Per-element 0-360 normalisation: the subtraction loop runs first, then the
addition loop, as in the source. -/
def norm0360 (q : ℚ) : ℚ := add360 (sub360 q)

/-- Per-element -180-180 normalisation. -/
def norm180 (q : ℚ) : ℚ := addLow (subHigh q)

/-- The longitude-normalisation pass of `getData` over the materialised array. -/
def normalizeLngs : LngFormat → List ℚ → List ℚ
  | .preserve, l => l
  | .zeroTo360, l => l.map norm0360
  | .neg180To180, l => l.map norm180

/-- The longitude array of a `getData` result under a given format. -/
def getDataLng (grid : GridTemplate0) (format : LngFormat) : List ℚ :=
  normalizeLngs format (lngArray grid)

/-- Minimum of a materialised coordinate array: the source starts at
`Infinity` and takes the running minimum, so on a nonempty list the result is
the fold of `min` from the head (the empty case never occurs with a parsed
grid; 0 is a dummy). -/
def listMinD : List ℚ → ℚ
  | [] => 0
  | x :: xs => xs.foldl min x

/-- Maximum of a materialised coordinate array, dually. -/
def listMaxD : List ℚ → ℚ
  | [] => 0
  | x :: xs => xs.foldl max x

/-- The `metadata.grid` record assembled by `getData`. -/
structure GridMeta where
  ni : Nat
  nj : Nat
  latMin : ℚ
  latMax : ℚ
  lngMin : ℚ
  lngMax : ℚ
  latIncrement : ℚ
  lngIncrement : ℚ
deriving DecidableEq, Repr

/-- The metadata construction of `getData`: bounds from the materialised (already
normalised) arrays, increments copied from the grid template. -/
def mkGridMeta (grid : GridTemplate0) (lat lng : List ℚ) : GridMeta :=
  { ni := grid.ni
    nj := grid.nj
    latMin := listMinD lat
    latMax := listMaxD lat
    lngMin := listMinD lng
    lngMax := listMaxD lng
    latIncrement := grid.jDirectionIncrement
    lngIncrement := grid.iDirectionIncrement }

/-- A `getData` result restricted to what `bilinearInterpolate` consumes: the
coordinate arrays, the metadata grid, and one parameter array. -/
structure DataView where
  lat : List ℚ
  lng : List ℚ
  grid : GridMeta
  param : List ℚ
deriving DecidableEq, Repr

/-- The `getData` view for a parsed template-0 grid, a longitude format and a
decoded parameter field. -/
def mkDataView (grid : GridTemplate0) (format : LngFormat) (param : List ℚ) : DataView :=
  let lat := latArray grid
  let lng := getDataLng grid format
  { lat := lat, lng := lng, grid := mkGridMeta grid lat lng, param := param }

/-! ## bilinearInterpolate -/

/-- The source's `bilinearInterpolate(data, targetLat, targetLng, parameters)`
for one parameter array: `null` outside the bounding box, otherwise the
four-corner weighted sum at the cell of the fractional indices.  Negative
array indices cannot arise in the theorems below; `Int.toNat` stands for the
direct JavaScript indexing. -/
def bilinearInterpolate (d : DataView) (targetLat targetLng : ℚ) : Option ℚ :=
  let g := d.grid
  if targetLat < min g.latMin g.latMax ∨ max g.latMin g.latMax < targetLat ∨
      targetLng < g.lngMin ∨ g.lngMax < targetLng then
    none
  else
    let iFloat : ℚ := (targetLng - g.lngMin) / g.lngIncrement
    let jFloat : ℚ := (targetLat - g.latMin) / g.latIncrement
    let i0 : ℤ := ⌊iFloat⌋
    let i1 : ℤ := min (i0 + 1) ((g.ni : ℤ) - 1)
    let j0 : ℤ := ⌊jFloat⌋
    let j1 : ℤ := min (j0 + 1) ((g.nj : ℤ) - 1)
    let wx : ℚ := iFloat - (i0 : ℚ)
    let wy : ℚ := jFloat - (j0 : ℚ)
    let v00 := d.param.getD (j0 * g.ni + i0).toNat 0
    let v10 := d.param.getD (j0 * g.ni + i1).toNat 0
    let v01 := d.param.getD (j1 * g.ni + i0).toNat 0
    let v11 := d.param.getD (j1 * g.ni + i1).toNat 0
    some (v00 * (1 - wx) * (1 - wy) + v10 * wx * (1 - wy) +
          v01 * (1 - wx) * wy + v11 * wx * wy)

/-! ## Wind direction

The wind-direction pass of `getData` computes
`Math.atan2(-u, -v) * 180 / Math.PI` and adds 360 when negative.  At calm
points the stored components are positive zeros, whose JavaScript negation is
negative zero, and ECMAScript fixes `Math.atan2(-0, -0) = -π`; this sign
information would be erased by a purely real-valued model, so a value is a
real number together with a negative-zero flag (meaningful only at 0). -/

/-- A JavaScript number as used on the wind path: its real value and whether
it is the IEEE negative zero. -/
structure JsVal where
  val : ℝ
  negZero : Bool

/-- JavaScript unary negation on `JsVal`: negating either zero flips its
sign. -/
noncomputable def negJs (x : JsVal) : JsVal :=
  ⟨-x.val, if x.val = 0 then !x.negZero else false⟩

/-- The function `Math.atan2 (y, x)` per ECMAScript: arctangent branch corrections for the
four half-planes, the axis special cases, and the signed-zero special cases
(`atan2(±0, x<0 or -0)` is `±π`, `atan2(±0, x>0 or +0)` is `±0`). -/
noncomputable def ecmaAtan2 (y x : JsVal) : ℝ :=
  if y.val = 0 then
    (if 0 < x.val ∨ (x.val = 0 ∧ x.negZero = false) then 0
     else if y.negZero = true then -Real.pi else Real.pi)
  else if x.val = 0 then
    (if 0 < y.val then Real.pi / 2 else -(Real.pi / 2))
  else if 0 < x.val then Real.arctan (y.val / x.val)
  else if 0 < y.val then Real.arctan (y.val / x.val) + Real.pi
  else Real.arctan (y.val / x.val) - Real.pi

/-- One point of the wind-direction computation in `getData`:
`dir = atan2(-u, -v) * 180 / π; if (dir < 0) dir += 360`. -/
noncomputable def windDir (u v : JsVal) : ℝ :=
  let dir := ecmaAtan2 (negJs u) (negJs v) * 180 / Real.pi
  if dir < 0 then dir + 360 else dir

/-! ## Inventory level fields versus getData level filter -/

/-- Level information derived by `getInventory` from the §4 template bytes
(present when at least 19 template bytes exist): type from byte 13, and the
scaled value from bytes 15-18 (a signed 32-bit combination) divided by
`10^scale` with the scale factor from byte 14. -/
def inventoryLevel (td : List Nat) : Option (Nat × ℚ) :=
  if 19 ≤ td.length then
    let levelType := td.getD 13 0
    let scaleFactor := td.getD 14 0
    let scaledValue := toInt32 (td.getD 15 0 * 2 ^ 24 + td.getD 16 0 * 2 ^ 16 +
      td.getD 17 0 * 2 ^ 8 + td.getD 18 0)
    some (levelType, (scaledValue : ℚ) / (10 : ℚ) ^ scaleFactor)
  else none

/-- Level information extracted inside `getData` for its filters (present
when at least 14 template bytes exist): type from byte 9 and a raw 32-bit
combination of bytes 11-14, with no scale factor applied.  A missing byte 14
contributes 0, as JavaScript `undefined` does under `|`. -/
def getDataLevel (td : List Nat) : Option (Nat × Int) :=
  if 14 ≤ td.length then
    some (td.getD 9 0,
      toInt32 (td.getD 11 0 * 2 ^ 24 + td.getD 12 0 * 2 ^ 16 +
        td.getD 13 0 * 2 ^ 8 + td.getD 14 0))
  else none

/-- The level-filter step of `getData`: a message is skipped when a level-type
filter is set and differs from the extracted level type, or a level-value
filter is set and differs from the extracted level value (`true` means the
message is excluded). -/
def getDataLevelSkip (filterLevelType : Option Nat) (filterLevelValue : Option Int)
    (td : List Nat) : Bool :=
  (match filterLevelType with
   | none => false
   | some t => decide ((getDataLevel td).map Prod.fst ≠ some t)) ||
  (match filterLevelValue with
   | none => false
   | some v => decide ((getDataLevel td).map Prod.snd ≠ some v))

/-! ## Helper lemmas -/

theorem toInt32_collapse (a b : Int) : toInt32 (toInt32 a + b) = toInt32 (a + b) := by
  unfold toInt32
  omega

theorem toInt32_eq_self {a : Int} (h1 : -(2 ^ 31) ≤ a) (h2 : a < 2 ^ 31) : toInt32 a = a := by
  unfold toInt32
  omega

theorem toInt32_nonneg_lt (a : Int) : -(2 ^ 31) ≤ toInt32 a ∧ toInt32 a < 2 ^ 31 := by
  unfold toInt32
  omega

/-- C1 (counterexample): on a 58-byte template buffer whose 32-bit field at
template-relative +16 is 5 and whose field at template-relative +30 is 7, the
parser's `ni` is 5, not the value at +30 - so the template-0 integer fields
are not read at the claimed template-relative offsets. -/
theorem c1_counterexample :
    (parseGridTemplate0
      [0, 0, 0, 0, 0, 0, 0, 0, 0, 0, 0, 0, 0, 0, 0, 0,
       0, 0, 0, 5, 0, 0, 0, 0, 0, 0, 0, 0, 0, 0,
       0, 0, 0, 7, 0, 0, 0, 0, 0, 0, 0, 0, 0, 0, 0, 0, 0, 0, 0, 0,
       0, 0, 0, 0, 0, 0, 0, 0] 0).ni = 5 ∧
    readU32
      [0, 0, 0, 0, 0, 0, 0, 0, 0, 0, 0, 0, 0, 0, 0, 0,
       0, 0, 0, 5, 0, 0, 0, 0, 0, 0, 0, 0, 0, 0,
       0, 0, 0, 7, 0, 0, 0, 0, 0, 0, 0, 0, 0, 0, 0, 0, 0, 0, 0, 0,
       0, 0, 0, 0, 0, 0, 0, 0] 30 = 7 ∧ (5 : Nat) ≠ 7 := by
  refine ⟨?_, by decide, by decide⟩
  decide

/-- C1 (amended): for a §3 with grid definition template number 0, the
template-0 integer fields sit at the claimed byte offsets taken relative to
the start of the section (not relative to the template base): `ni` at
section +30, `nj` at +34, `lat_first` at +46, `lon_first` at +50, the
resolution and component flags at +54, `i_increment` at +63, `j_increment`
at +67 and `scanning_mode` at +71, with the lat/lon fields decoded as signed
32-bit integers scaled by 1e-6 (exact division in `ℚ`). -/
theorem c1_grid_offsets (buf : List Nat) (off : Nat)
    (h : readU16 buf (off + 12) = 0) :
    ∃ gt, (parseSection3 buf off).1.gridTemplate = some gt ∧
      gt.ni = readU32 buf (off + 30) ∧
      gt.nj = readU32 buf (off + 34) ∧
      gt.latitudeOfFirstGridPoint = (getInt32 buf (off + 46) : ℚ) / 1000000 ∧
      gt.longitudeOfFirstGridPoint = (getInt32 buf (off + 50) : ℚ) / 1000000 ∧
      gt.resolutionAndComponentFlags = byteAt buf (off + 54) ∧
      gt.iDirectionIncrement = (readU32 buf (off + 63) : ℚ) / 1000000 ∧
      gt.jDirectionIncrement = (readU32 buf (off + 67) : ℚ) / 1000000 ∧
      gt.scanningMode = byteAt buf (off + 71) := by
  refine ⟨parseGridTemplate0 buf (off + 14), ?_, ?_, ?_, ?_, ?_, ?_, ?_, ?_, ?_⟩
  · simp [parseSection3, h]
  all_goals simp only [parseGridTemplate0]

/-- C1 (witness for the amended theorem): the amended offset relations hold
on a concrete all-zero 72-byte section. -/
theorem c1_grid_offsets_witness :
    ∃ gt, (parseSection3 (List.replicate 72 0) 0).1.gridTemplate = some gt ∧
      gt.ni = readU32 (List.replicate 72 0) (0 + 30) ∧
      gt.nj = readU32 (List.replicate 72 0) (0 + 34) ∧
      gt.latitudeOfFirstGridPoint = (getInt32 (List.replicate 72 0) (0 + 46) : ℚ) / 1000000 ∧
      gt.longitudeOfFirstGridPoint = (getInt32 (List.replicate 72 0) (0 + 50) : ℚ) / 1000000 ∧
      gt.resolutionAndComponentFlags = byteAt (List.replicate 72 0) (0 + 54) ∧
      gt.iDirectionIncrement = (readU32 (List.replicate 72 0) (0 + 63) : ℚ) / 1000000 ∧
      gt.jDirectionIncrement = (readU32 (List.replicate 72 0) (0 + 67) : ℚ) / 1000000 ∧
      gt.scanningMode = byteAt (List.replicate 72 0) (0 + 71) :=
  c1_grid_offsets (List.replicate 72 0) 0 (by decide)

/-- C3 (code bug): `decodeSimplePacking` with zero bits per value fills the
field with the bare reference value and never applies the decimal scale.  At
R = 5, E = 0, D = 1, N = 3 the code produces three 5s, while the claimed
constant R * 10^(-D) is 1/2. -/
theorem c3_bits0_unscaled :
    decodeSimplePacking [] 0 0
      { referenceValue := 5, binaryScaleFactor := 0, decimalScaleFactor := 1,
        numberOfBits := 0, typeOfOriginalFieldValues := 0 } 3 = some [5, 5, 5] ∧
    (5 : ℚ) * (10 : ℚ) ^ (-(1 : ℤ)) = 1 / 2 ∧ (5 : ℚ) ≠ 1 / 2 := by
  refine ⟨?_, by norm_num, by norm_num⟩
  simp [decodeSimplePacking, List.replicate]

/-- C4 (code bug): on the one-byte buffer `[0]` - a tail shorter than the
16-byte indicator section - `parse` never terminates: `parseSection0` yields
`null`, `parseMessage` yields `null` without advancing the cursor, and the
`while (offset < byteLength)` loop repeats the identical state, so no amount
of fuel completes the loop. -/
theorem c4_parse_diverges : ∀ ofuel ifuel : Nat, parse [0] ofuel ifuel = none := by
  intro ofuel ifuel
  induction ofuel with
  | zero => rfl
  | succ n ih => exact Eq.trans (rfl : parse [0] (n + 1) ifuel = parse [0] n ifuel) ih

/-- C4 (companion): the repeated state is visible in one step: `parseMessage`
on that buffer returns `null` with the cursor still at 0 while the loop guard
`0 < 1` holds. -/
theorem c4_parse_step_fixpoint (ifuel : Nat) :
    parseMessage [0] ifuel 0 = .ok none ∧ 0 < List.length [0] := by
  exact ⟨rfl, by decide⟩

/-- C7 (counterexample): a well-formed 41-byte message whose §0 edition byte
is 7 parses successfully - `parseMessage` returns the message with
`edition = 7` and the cursor at the end, throwing nothing - so parsing does
not fail on editions other than 2. -/
theorem c7_counterexample :
    (match parseMessage
        [71, 82, 73, 66, 0, 0, 0, 7, 0, 0, 0, 0, 0, 0, 0, 41,
         0, 0, 0, 21, 1, 0, 0, 0, 0, 0, 0, 0, 0, 0, 0, 0, 0, 0, 0, 0, 0,
         55, 55, 55, 55] 10 0 with
      | .ok (some (m, o)) => some (m.edition, o)
      | _ => none) = some (7, 41) := by
  decide

/-- C7 (amended): `parseSection0` performs no edition check at all - whenever
16 bytes are available and the signature bytes spell `GRIB`, it succeeds and
simply records the edition byte at offset +7, whatever its value; the message
is then parsed normally.  (Consequently parsed messages can carry any
edition.) -/
theorem c7_no_edition_check (buf : List Nat) (off : Nat)
    (hlen : off + 16 ≤ buf.length)
    (hsig : byteAt buf off = 71 ∧ byteAt buf (off + 1) = 82 ∧
      byteAt buf (off + 2) = 73 ∧ byteAt buf (off + 3) = 66) :
    parseSection0 buf off = .ok (some
      ({ discipline := byteAt buf (off + 6)
         edition := byteAt buf (off + 7)
         totalLength := readUint64 buf (off + 8) }, off + 16)) := by
  unfold parseSection0
  rw [if_neg (by omega), if_pos hsig]

/-- C7 (witness for the amended theorem): a concrete 16-byte `GRIB` header
with edition byte 9 is accepted by `parseSection0` with edition 9 recorded. -/
theorem c7_no_edition_check_witness :
    parseSection0 [71, 82, 73, 66, 0, 0, 3, 9, 0, 0, 0, 0, 0, 0, 0, 16] 0 = .ok (some
      ({ discipline := 3, edition := 9, totalLength := 16 }, 16)) := by
  have h := c7_no_edition_check [71, 82, 73, 66, 0, 0, 3, 9, 0, 0, 0, 0, 0, 0, 0, 16] 0
    (by decide) ⟨by decide, by decide, by decide, by decide⟩
  exact h

/-- C10 (code bug): on a 19-byte §4 template whose WMO level fields say type
103, scale 0, scaled value 10, the inventory derives level `(103, 10)` from
bytes 13/14/15-18 while the `getData` level filter compares the requested
type against byte 9 (a forecast-time byte, here 0) - so filtering by the
message's own inventory level type 103 excludes the message. -/
theorem c10_filter_contradicts_inventory :
    inventoryLevel [0, 0, 0, 0, 0, 0, 0, 0, 1, 0, 0, 0, 33, 103, 0, 0, 0, 0, 10] =
      some (103, 10) ∧
    getDataLevelSkip (some 103) none
      [0, 0, 0, 0, 0, 0, 0, 0, 1, 0, 0, 0, 33, 103, 0, 0, 0, 0, 10] = true ∧
    (getDataLevel [0, 0, 0, 0, 0, 0, 0, 0, 1, 0, 0, 0, 33, 103, 0, 0, 0, 0, 10]).map
      Prod.fst = some 0 := by
  refine ⟨?_, by decide, by decide⟩
  norm_num [inventoryLevel, toInt32, List.getD]

theorem diff1Aux_length (g : Int) (l : List Int) : ∀ p : Int, (diff1Aux g p l).length = l.length := by
  induction l with
  | nil => intro p; rfl
  | cons x xs ih => intro p; simp [diff1Aux, ih]

theorem diff1Aux_getD_succ (g : Int) (l : List Int) :
    ∀ (p : Int) (n : Nat), n + 1 < l.length →
      (diff1Aux g p l).getD (n + 1) 0 =
        toInt32 (l.getD (n + 1) 0 + g + (diff1Aux g p l).getD n 0) := by
  induction l with
  | nil => intro p n h; simp at h
  | cons x xs ih =>
    intro p n h
    show (diff1Aux g p (x :: xs)).getD (n + 1) 0 = _
    rw [show diff1Aux g p (x :: xs) =
      toInt32 (toInt32 (x + g) + p) :: diff1Aux g (toInt32 (toInt32 (x + g) + p)) xs from rfl]
    cases n with
    | zero =>
      have hxs : 0 < xs.length := by
        simpa using Nat.lt_of_succ_lt_succ h
      match xs, hxs with
      | z :: zs, _ =>
        simp [diff1Aux, toInt32_collapse]
    | succ m =>
      have hl : (x :: xs).length = xs.length + 1 := rfl
      have hm : m + 1 < xs.length := by omega
      have := ih (toInt32 (toInt32 (x + g) + p)) m (by simpa using hm)
      simp only [List.getD_cons_succ]
      exact this

theorem diff2Aux_length (g : Int) (l : List Int) :
    ∀ p2 p1 : Int, (diff2Aux g p2 p1 l).length = l.length := by
  induction l with
  | nil => intro p2 p1; rfl
  | cons x xs ih => intro p2 p1; simp [diff2Aux, ih]

theorem diff2Aux_getD_zero (g p2 p1 x : Int) (xs : List Int) :
    (diff2Aux g p2 p1 (x :: xs)).getD 0 0 = toInt32 (x + g + 2 * p1 - p2) := by
  show toInt32 (toInt32 (x + g) + 2 * p1 - p2) = _
  rw [show toInt32 (x + g) + 2 * p1 - p2 = toInt32 (x + g) + (2 * p1 - p2) from by ring,
    toInt32_collapse]
  ring_nf

theorem diff2Aux_getD_one (g p2 p1 x y : Int) (xs : List Int) :
    (diff2Aux g p2 p1 (x :: y :: xs)).getD 1 0 =
      toInt32 (y + g + 2 * (diff2Aux g p2 p1 (x :: y :: xs)).getD 0 0 - p1) := by
  show (diff2Aux g p1 (toInt32 (toInt32 (x + g) + 2 * p1 - p2)) (y :: xs)).getD 0 0 = _
  rw [diff2Aux_getD_zero]
  rfl

theorem diff2Aux_getD_succ_succ (g : Int) (l : List Int) :
    ∀ (p2 p1 : Int) (n : Nat), n + 2 < l.length →
      (diff2Aux g p2 p1 l).getD (n + 2) 0 =
        toInt32 (l.getD (n + 2) 0 + g + 2 * (diff2Aux g p2 p1 l).getD (n + 1) 0 -
          (diff2Aux g p2 p1 l).getD n 0) := by
  induction l with
  | nil => intro p2 p1 n h; simp at h
  | cons x xs ih =>
    intro p2 p1 n h
    have hl : (x :: xs).length = xs.length + 1 := rfl
    rw [show diff2Aux g p2 p1 (x :: xs) =
      toInt32 (toInt32 (x + g) + 2 * p1 - p2) ::
        diff2Aux g p1 (toInt32 (toInt32 (x + g) + 2 * p1 - p2)) xs from rfl]
    cases n with
    | zero =>
      have hxs : 2 ≤ xs.length := by omega
      match xs, hxs with
      | z :: w :: zs, _ =>
        simp only [List.getD_cons_succ, List.getD_cons_zero]
        exact diff2Aux_getD_one g p1 _ z w zs
    | succ m =>
      have hm : m + 2 < xs.length := by omega
      have := ih p1 (toInt32 (toInt32 (x + g) + 2 * p1 - p2)) m hm
      simp only [List.getD_cons_succ]
      exact this

theorem sdr1_getD (h1 h2 g : Int) (l : List Int) (n : Nat) (h : n + 1 < l.length) :
    (spatialDiffReverse 1 h1 h2 g l).getD (n + 1) 0 =
      toInt32 (l.getD (n + 1) 0 + g + (spatialDiffReverse 1 h1 h2 g l).getD n 0) := by
  match l with
  | x :: xs =>
    have hsd : spatialDiffReverse 1 h1 h2 g (x :: xs) =
        toInt32 h1 :: diff1Aux g (toInt32 h1) xs := by
      simp [spatialDiffReverse]
    rw [hsd]
    have hl : (x :: xs).length = xs.length + 1 := rfl
    cases n with
    | zero =>
      have hxs : 0 < xs.length := by omega
      match xs, hxs with
      | z :: zs, _ =>
        simp [diff1Aux, toInt32_collapse]
    | succ m =>
      have hm : m + 1 < xs.length := by omega
      have := diff1Aux_getD_succ g xs (toInt32 h1) m hm
      simp only [List.getD_cons_succ]
      exact this

theorem sdr2_getD (h1 h2 g : Int) (l : List Int) (n : Nat) (h : n + 2 < l.length) :
    (spatialDiffReverse 2 h1 h2 g l).getD (n + 2) 0 =
      toInt32 (l.getD (n + 2) 0 + g + 2 * (spatialDiffReverse 2 h1 h2 g l).getD (n + 1) 0 -
        (spatialDiffReverse 2 h1 h2 g l).getD n 0) := by
  match l with
  | a :: b :: xs =>
    have hsd : spatialDiffReverse 2 h1 h2 g (a :: b :: xs) =
        toInt32 h1 :: toInt32 h2 :: diff2Aux g (toInt32 h1) (toInt32 h2) xs := by
      simp [spatialDiffReverse]
    rw [hsd]
    have hl : (a :: b :: xs).length = xs.length + 2 := rfl
    cases n with
    | zero =>
      have hxs : 0 < xs.length := by omega
      match xs, hxs with
      | z :: zs, _ =>
        simp only [List.getD_cons_succ, List.getD_cons_zero]
        exact diff2Aux_getD_zero g (toInt32 h1) (toInt32 h2) z zs
    | succ m =>
      cases m with
      | zero =>
        have hxs : 2 ≤ xs.length := by omega
        match xs, hxs with
        | z :: w :: zs, _ =>
          simp only [List.getD_cons_succ, List.getD_cons_zero]
          exact diff2Aux_getD_one g (toInt32 h1) (toInt32 h2) z w zs
      | succ k =>
        have hk : k + 2 < xs.length := by omega
        have := diff2Aux_getD_succ_succ g xs (toInt32 h1) (toInt32 h2) k hk
        simp only [List.getD_cons_succ]
        exact this

/-- C2: the complex-packing spatial-differencing reversal.  The overall
minimum `g_min` is decoded in sign-magnitude form - after `h1` (and `h2` when
the order is 2), one sign bit and then a magnitude of `nbitsd - 1` bits,
negated when the sign bit is 1 (stated for both extra-descriptor widths).
After group unpacking, order 1 sets `I[0] = h1` and for `n ≥ 1` replaces
`I[n]` by `I[n] + g_min + I[n-1]`; order 2 sets `I[0] = h1`, `I[1] = h2` and
for `n ≥ 2` replaces `I[n]` by `I[n] + g_min + 2*I[n-1] - I[n-2]` - exactly,
whenever the updated value fits the `Int32Array` element range (the stores
wrap at 32 bits). -/
theorem c2_spatial_differencing :
    (∀ (buf : List Nat) (off : Nat),
      readSpatialDiffHeader buf off 1 2 = do
        let h1 ← readBits buf (off * 8) 16
        let s ← readBits buf (off * 8 + 16) 1
        let m ← readBits buf (off * 8 + 17) 15
        pure (h1, (0 : Int), if s = 1 then -m else m, off * 8 + 32)) ∧
    (∀ (buf : List Nat) (off : Nat),
      readSpatialDiffHeader buf off 2 1 = do
        let h1 ← readBits buf (off * 8) 8
        let h2 ← readBits buf (off * 8 + 8) 8
        let s ← readBits buf (off * 8 + 16) 1
        let m ← readBits buf (off * 8 + 17) 7
        pure (h1, h2, if s = 1 then -m else m, off * 8 + 24)) ∧
    (∀ (h1 gmin : Int) (l : List Int),
      (spatialDiffReverse 1 h1 0 gmin l).length = l.length ∧
      (0 < l.length → -(2 ^ 31) ≤ h1 → h1 < 2 ^ 31 →
        (spatialDiffReverse 1 h1 0 gmin l).getD 0 0 = h1) ∧
      (∀ n : Nat, n + 1 < l.length →
        -(2 ^ 31) ≤ l.getD (n + 1) 0 + gmin + (spatialDiffReverse 1 h1 0 gmin l).getD n 0 →
        l.getD (n + 1) 0 + gmin + (spatialDiffReverse 1 h1 0 gmin l).getD n 0 < 2 ^ 31 →
        (spatialDiffReverse 1 h1 0 gmin l).getD (n + 1) 0 =
          l.getD (n + 1) 0 + gmin + (spatialDiffReverse 1 h1 0 gmin l).getD n 0)) ∧
    (∀ (h1 h2 gmin : Int) (l : List Int),
      (spatialDiffReverse 2 h1 h2 gmin l).length = l.length ∧
      (0 < l.length → -(2 ^ 31) ≤ h1 → h1 < 2 ^ 31 →
        (spatialDiffReverse 2 h1 h2 gmin l).getD 0 0 = h1) ∧
      (2 ≤ l.length → -(2 ^ 31) ≤ h2 → h2 < 2 ^ 31 →
        (spatialDiffReverse 2 h1 h2 gmin l).getD 1 0 = h2) ∧
      (∀ n : Nat, n + 2 < l.length →
        -(2 ^ 31) ≤ l.getD (n + 2) 0 + gmin +
          2 * (spatialDiffReverse 2 h1 h2 gmin l).getD (n + 1) 0 -
          (spatialDiffReverse 2 h1 h2 gmin l).getD n 0 →
        l.getD (n + 2) 0 + gmin + 2 * (spatialDiffReverse 2 h1 h2 gmin l).getD (n + 1) 0 -
          (spatialDiffReverse 2 h1 h2 gmin l).getD n 0 < 2 ^ 31 →
        (spatialDiffReverse 2 h1 h2 gmin l).getD (n + 2) 0 =
          l.getD (n + 2) 0 + gmin + 2 * (spatialDiffReverse 2 h1 h2 gmin l).getD (n + 1) 0 -
            (spatialDiffReverse 2 h1 h2 gmin l).getD n 0)) := by
  refine ⟨?_, ?_, ?_, ?_⟩
  · intro buf off
    simp only [readSpatialDiffHeader]
    norm_num
  · intro buf off
    simp only [readSpatialDiffHeader]
    norm_num
    cases readBits buf (off * 8) 8 <;> norm_num
    cases readBits buf (off * 8 + 8) 8 <;> norm_num [Nat.add_assoc]
  · intro h1 gmin l
    refine ⟨?_, ?_, ?_⟩
    · cases l with
      | nil => rfl
      | cons x xs => simp [spatialDiffReverse, diff1Aux_length]
    · intro hlen hlo hhi
      cases l with
      | nil => simp at hlen
      | cons x xs =>
        show (spatialDiffReverse 1 h1 0 gmin (x :: xs)).getD 0 0 = h1
        simp [spatialDiffReverse, toInt32_eq_self hlo hhi]
    · intro n hn hlo hhi
      rw [sdr1_getD h1 0 gmin l n hn]
      exact toInt32_eq_self hlo hhi
  · intro h1 h2 gmin l
    refine ⟨?_, ?_, ?_, ?_⟩
    · cases l with
      | nil => rfl
      | cons x xs =>
        cases xs with
        | nil => rfl
        | cons y ys => simp [spatialDiffReverse, diff2Aux_length]
    · intro hlen hlo hhi
      cases l with
      | nil => simp at hlen
      | cons x xs =>
        cases xs with
        | nil => simp [spatialDiffReverse, toInt32_eq_self hlo hhi]
        | cons y ys => simp [spatialDiffReverse, toInt32_eq_self hlo hhi]
    · intro hlen hlo hhi
      cases l with
      | nil => simp at hlen
      | cons x xs =>
        cases xs with
        | nil => simp at hlen
        | cons y ys => simp [spatialDiffReverse, toInt32_eq_self hlo hhi]
    · intro n hn hlo hhi
      rw [sdr2_getD h1 h2 gmin l n hn]
      exact toInt32_eq_self hlo hhi

/-- C2 (witness): on the spec's test vector - order 1, `h1 = 100`,
`g_min = -2`, unpacked deltas `[_, 100, 100, 100, 100]` - the reversed field
is `[100, 198, 296, 394, 492]` and the step relation holds concretely at
`n = 1`. -/
theorem c2_spatial_differencing_witness :
    (spatialDiffReverse 1 100 0 (-2) [0, 100, 100, 100, 100]).getD 1 0 =
      [(0 : Int), 100, 100, 100, 100].getD 1 0 + (-2) +
        (spatialDiffReverse 1 100 0 (-2) [0, 100, 100, 100, 100]).getD 0 0 :=
  (c2_spatial_differencing.2.2.1 100 (-2) [0, 100, 100, 100, 100]).2.2 0 (by decide)
    (by decide) (by decide)

theorem bitsVal_lt (buf : List Nat) (pos : Nat) : ∀ m, bitsVal buf pos m < 2 ^ m := by
  intro m
  induction m with
  | zero => simp [bitsVal]
  | succ k ih =>
    have hb : bitAt buf (pos + k) < 2 := Nat.mod_lt _ (by norm_num)
    calc bitsVal buf pos (k + 1) = bitsVal buf pos k * 2 + bitAt buf (pos + k) := rfl
    _ < 2 ^ k * 2 := by omega
    _ = 2 ^ (k + 1) := by ring

theorem bitsVal_add (buf : List Nat) (pos a : Nat) :
    ∀ b, bitsVal buf pos (a + b) = bitsVal buf pos a * 2 ^ b + bitsVal buf (pos + a) b := by
  intro b
  induction b with
  | zero => simp [bitsVal]
  | succ k ih =>
    show bitsVal buf pos (a + k) * 2 + bitAt buf (pos + (a + k)) = _
    rw [ih, ← Nat.add_assoc]
    show _ = bitsVal buf pos a * 2 ^ (k + 1) +
      (bitsVal buf (pos + a) k * 2 + bitAt buf (pos + a + k))
    ring

theorem bitsVal_within_byte (buf : List Nat) (pos : Nat) :
    ∀ m, pos % 8 + m ≤ 8 →
      bitsVal buf pos m = byteAt buf (pos / 8) / 2 ^ (8 - pos % 8 - m) % 2 ^ m := by
  intro m
  induction m with
  | zero => intro h; simp [bitsVal, Nat.mod_one]
  | succ k ih =>
    intro h
    have hdiv : (pos + k) / 8 = pos / 8 := by omega
    have hmod : (pos + k) % 8 = pos % 8 + k := by omega
    have hb : bitAt buf (pos + k) = byteAt buf (pos / 8) / 2 ^ (7 - pos % 8 - k) % 2 := by
      unfold bitAt byteAt
      rw [hdiv, hmod, show 7 - (pos % 8 + k) = 7 - pos % 8 - k from by omega]
    show bitsVal buf pos k * 2 + bitAt buf (pos + k) = _
    rw [ih (by omega), hb]
    have e1 : 8 - pos % 8 - k = (8 - pos % 8 - (k + 1)) + 1 := by omega
    have e2 : 7 - pos % 8 - k = 8 - pos % 8 - (k + 1) := by omega
    rw [e1, e2]
    set B := byteAt buf (pos / 8)
    set t := 8 - pos % 8 - (k + 1)
    have e3 : B / 2 ^ (t + 1) = B / 2 ^ t / 2 := by
      rw [pow_succ, Nat.div_div_eq_div_mul]
    have e4 : B / 2 ^ t % 2 ^ (k + 1) = B / 2 ^ t % (2 * 2 ^ k) := by
      congr 1
      ring
    rw [e3, e4, Nat.mod_mul]
    ring

theorem readBitsLoop_spec (buf : List Nat) :
    ∀ (fuel m pos : Nat) (acc : Int), m ≤ fuel → 0 ≤ acc →
      acc * 2 ^ m + bitsVal buf pos m < 2 ^ 31 →
      readBitsLoop buf fuel pos m acc = acc * 2 ^ m + bitsVal buf pos m := by
  intro fuel
  induction fuel with
  | zero =>
    intro m pos acc hm h0 hr
    have hz : m = 0 := by omega
    subst hz
    simp [readBitsLoop, bitsVal]
  | succ f ih =>
    intro m pos acc hm h0 hr
    match m, hm, hr with
    | 0, _, _ => simp [readBitsLoop, bitsVal]
    | r + 1, hm, hr =>
      have hshift : pos % 8 < 8 := Nat.mod_lt _ (by norm_num)
      set take := min (r + 1) (8 - pos % 8) with htake
      have htake1 : 1 ≤ take := by omega
      have htake2 : take ≤ r + 1 := by omega
      have hbyte : pos % 8 + take ≤ 8 := by omega
      set m' := r + 1 - take with hm'
      set bv1 : Int := (bitsVal buf pos take : Int) with hbv1def
      set bv2 : Int := (bitsVal buf (pos + take) m' : Int) with hbv2def
      have hbv1 : (0 : Int) ≤ bv1 := Int.natCast_nonneg _
      have hbv2 : (0 : Int) ≤ bv2 := Int.natCast_nonneg _
      have hsplit : (bitsVal buf pos (r + 1) : Int) = bv1 * 2 ^ m' + bv2 := by
        have hs := bitsVal_add buf pos take m'
        rw [show take + m' = r + 1 from by omega] at hs
        rw [hs]
        push_cast
        ring
      have hpow : (2 : Int) ^ take * 2 ^ m' = 2 ^ (r + 1) := by
        rw [← pow_add]
        congr 1
        omega
      have hmono : (1 : Int) ≤ 2 ^ m' := one_le_pow₀ (by norm_num)
      have hlift : acc * 2 ^ (r + 1) + (bv1 * 2 ^ m' + bv2) < 2 ^ 31 := by
        rw [← hsplit]
        exact hr
      have hbound : acc * 2 ^ take + bv1 < 2 ^ 31 := by
        have hle1 : acc * 2 ^ take ≤ acc * 2 ^ (r + 1) :=
          mul_le_mul_of_nonneg_left (pow_le_pow_right₀ (by norm_num) htake2) h0
        nlinarith [hbv1, hbv2, hmono]
      have hwrap : toInt32 (acc * 2 ^ take) = acc * 2 ^ take := by
        have hnn : (0 : Int) ≤ acc * 2 ^ take := mul_nonneg h0 (by positivity)
        apply toInt32_eq_self
        · linarith
        · nlinarith [hbv1]
      have hx : (((byteAt buf (pos / 8) / 2 ^ (8 - pos % 8 - take)) % 2 ^ take : Nat) : Int) =
          bv1 := by
        rw [hbv1def, bitsVal_within_byte buf pos take hbyte]
      have hstep : readBitsLoop buf (f + 1) pos (r + 1) acc =
          readBitsLoop buf f (pos + take) m'
            (toInt32 (acc * 2 ^ take) +
              (((byteAt buf (pos / 8) / 2 ^ (8 - pos % 8 - take)) % 2 ^ take : Nat) : Int)) := rfl
      have hacc' : (0 : Int) ≤ acc * 2 ^ take + bv1 :=
        add_nonneg (mul_nonneg h0 (by positivity)) hbv1
      have hbound2 : (acc * 2 ^ take + bv1) * 2 ^ m' + bitsVal buf (pos + take) m' < 2 ^ 31 := by
        have : (acc * 2 ^ take + bv1) * 2 ^ m' + bv2 =
            acc * 2 ^ (r + 1) + (bv1 * 2 ^ m' + bv2) := by
          rw [← hpow]
          ring
        rw [← hbv2def, this]
        exact hlift
      rw [hstep, hx, hwrap, ih m' (pos + take) (acc * 2 ^ take + bv1) (by omega) hacc' hbound2]
      rw [← hbv2def, hsplit, ← hpow]
      ring

/-- C8 (amended): `readBits(bit_offset, n)` fails with the out-of-bounds
error exactly when `bit_offset + n` exceeds the buffer's bit length; on
success with `n ≤ 31` it returns the unsigned big-endian MSB-first value of
those `n` bits, a value in `[0, 2^n)`.  (For `n = 32` the 32-bit accumulator
makes the result the two's-complement signed reading - see the
counterexample - so the claimed unsigned range holds only up to 31 bits.) -/
theorem c8_readBits (buf : List Nat) (pos n : Nat) :
    (n ≤ 31 → pos + n ≤ 8 * buf.length →
      readBits buf pos n = some (bitsVal buf pos n) ∧ bitsVal buf pos n < 2 ^ n) ∧
    (readBits buf pos n = none ↔ 8 * buf.length < pos + n) := by
  have hcond : (((pos : Int) + n - 1) / 8 ≥ (buf.length : Int)) ↔ 8 * buf.length < pos + n := by
    omega
  constructor
  · intro hn hin
    constructor
    · unfold readBits
      rw [if_neg (by omega)]
      congr 1
      have hlt : bitsVal buf pos n < 2 ^ n := bitsVal_lt buf pos n
      have hpow : (2 : Int) ^ n ≤ 2 ^ 31 := pow_le_pow_right₀ (by norm_num) hn
      have := readBitsLoop_spec buf n n pos 0 le_rfl le_rfl
        (by
          simp only [zero_mul, zero_add]
          calc (bitsVal buf pos n : Int) < 2 ^ n := by exact_mod_cast hlt
          _ ≤ 2 ^ 31 := hpow)
      simpa using this
    · exact bitsVal_lt buf pos n
  · unfold readBits
    constructor
    · intro h
      by_contra hc
      rw [if_neg (by omega)] at h
      exact Option.noConfusion h
    · intro h
      rw [if_pos (by omega)]

/-- C8 (witness): reading 4 bits of the byte `0xAA` from offset 0 succeeds
with the in-range value 10, and the bounds equivalence holds concretely. -/
theorem c8_readBits_witness :
    readBits [170] 0 4 = some (bitsVal [170] 0 4) ∧ bitsVal [170] 0 4 < 2 ^ 4 :=
  (c8_readBits [170] 0 4).1 (by decide) (by decide)

/-- C8 (counterexample): with `n = 32` and all-ones input the bounds check
passes but the 32-bit accumulator wraps, and `readBits` returns `-1` - a
negative number, not a value in `[0, 2^32)` as claimed. -/
theorem c8_counterexample :
    readBits [255, 255, 255, 255] 0 32 = some (-1) ∧ ¬ (0 : Int) ≤ -1 := by
  exact ⟨by decide, by decide⟩

theorem sub360_lt_aux : ∀ (n : Nat) (q : ℚ), (⌊q / 360⌋).toNat ≤ n → sub360 q < 360 := by
  intro n
  induction n with
  | zero =>
    intro q h
    rw [sub360]
    split
    case isTrue h1 =>
      exfalso
      have h2 : (1 : ℤ) ≤ ⌊q / 360⌋ := by
        rw [Int.le_floor]
        push_cast
        linarith
      omega
    case isFalse h1 => linarith
  | succ k ih =>
    intro q h
    rw [sub360]
    split
    case isTrue h1 =>
      apply ih
      have h2 : (1 : ℤ) ≤ ⌊q / 360⌋ := by
        rw [Int.le_floor]
        push_cast
        linarith
      have h3 : ⌊(q - 360) / 360⌋ = ⌊q / 360⌋ - 1 := by
        rw [show (q - 360) / 360 = q / 360 - ((1 : ℤ) : ℚ) from by push_cast; ring,
          Int.floor_sub_int]
      omega
    case isFalse h1 => linarith

theorem sub360_lt (q : ℚ) : sub360 q < 360 := sub360_lt_aux _ q le_rfl

theorem add360_spec_aux : ∀ (n : Nat) (q : ℚ), (⌈-q / 360⌉).toNat ≤ n →
    0 ≤ add360 q ∧ (q < 360 → add360 q < 360) := by
  intro n
  induction n with
  | zero =>
    intro q h
    rw [add360]
    split
    case isTrue h1 =>
      exfalso
      have h2 : (1 : ℤ) ≤ ⌈-q / 360⌉ := by
        have h4 : ((0 : ℤ) : ℚ) < -q / 360 := by push_cast; linarith
        have h5 := Int.lt_ceil.mpr h4
        omega
      omega
    case isFalse h1 =>
      exact ⟨by linarith, fun h2 => h2⟩
  | succ k ih =>
    intro q h
    rw [add360]
    split
    case isTrue h1 =>
      have h2 : (1 : ℤ) ≤ ⌈-q / 360⌉ := by
        have h4 : ((0 : ℤ) : ℚ) < -q / 360 := by push_cast; linarith
        have h5 := Int.lt_ceil.mpr h4
        omega
      have h3 : ⌈-(q + 360) / 360⌉ = ⌈-q / 360⌉ - 1 := by
        rw [show -(q + 360) / 360 = -q / 360 - ((1 : ℤ) : ℚ) from by push_cast; ring,
          Int.ceil_sub_int]
      refine (ih (q + 360) (by omega)).imp id fun h5 h6 => h5 (by linarith)
    case isFalse h1 =>
      exact ⟨by linarith, fun h2 => h2⟩

theorem norm0360_range (q : ℚ) : 0 ≤ norm0360 q ∧ norm0360 q < 360 := by
  have h1 := sub360_lt q
  have h2 := add360_spec_aux (⌈-(sub360 q) / 360⌉).toNat (sub360 q) le_rfl
  exact ⟨h2.1, h2.2 h1⟩

theorem subHigh_le_aux : ∀ (n : Nat) (q : ℚ), (⌈q / 360⌉).toNat ≤ n → subHigh q ≤ 180 := by
  intro n
  induction n with
  | zero =>
    intro q h
    rw [subHigh]
    split
    case isTrue h1 =>
      exfalso
      have h2 : (1 : ℤ) ≤ ⌈q / 360⌉ := by
        have h4 : ((0 : ℤ) : ℚ) < q / 360 := by push_cast; linarith
        have h5 := Int.lt_ceil.mpr h4
        omega
      omega
    case isFalse h1 => linarith
  | succ k ih =>
    intro q h
    rw [subHigh]
    split
    case isTrue h1 =>
      apply ih
      have h2 : (1 : ℤ) ≤ ⌈q / 360⌉ := by
        have h4 : ((0 : ℤ) : ℚ) < q / 360 := by push_cast; linarith
        have h5 := Int.lt_ceil.mpr h4
        omega
      have h3 : ⌈(q - 360) / 360⌉ = ⌈q / 360⌉ - 1 := by
        rw [show (q - 360) / 360 = q / 360 - ((1 : ℤ) : ℚ) from by push_cast; ring,
          Int.ceil_sub_int]
      omega
    case isFalse h1 => linarith

theorem addLow_spec_aux : ∀ (n : Nat) (q : ℚ), (⌈-q / 360⌉).toNat ≤ n →
    -180 < addLow q ∧ (q ≤ 180 → addLow q ≤ 180) := by
  intro n
  induction n with
  | zero =>
    intro q h
    rw [addLow]
    split
    case isTrue h1 =>
      exfalso
      have h2 : (1 : ℤ) ≤ ⌈-q / 360⌉ := by
        have h4 : ((0 : ℤ) : ℚ) < -q / 360 := by push_cast; linarith
        have h5 := Int.lt_ceil.mpr h4
        omega
      omega
    case isFalse h1 =>
      exact ⟨by linarith, fun h2 => h2⟩
  | succ k ih =>
    intro q h
    rw [addLow]
    split
    case isTrue h1 =>
      have h2 : (1 : ℤ) ≤ ⌈-q / 360⌉ := by
        have h4 : ((0 : ℤ) : ℚ) < -q / 360 := by push_cast; linarith
        have h5 := Int.lt_ceil.mpr h4
        omega
      have h3 : ⌈-(q + 360) / 360⌉ = ⌈-q / 360⌉ - 1 := by
        rw [show -(q + 360) / 360 = -q / 360 - ((1 : ℤ) : ℚ) from by push_cast; ring,
          Int.ceil_sub_int]
      refine (ih (q + 360) (by omega)).imp id fun h5 h6 => h5 (by linarith)
    case isFalse h1 =>
      exact ⟨by linarith, fun h2 => h2⟩

theorem norm180_range (q : ℚ) : -180 < norm180 q ∧ norm180 q ≤ 180 := by
  have h1 := subHigh_le_aux (⌈q / 360⌉).toNat q le_rfl
  have h2 := addLow_spec_aux (⌈-(subHigh q) / 360⌉).toNat (subHigh q) le_rfl
  exact ⟨h2.1, h2.2 h1⟩

/-- C9: after `getData`'s longitude normalisation, every element of the
`lng` array lies in `[0, 360)` in `0-360` mode and in `(-180, 180]` in
`-180-180` mode, and in `preserve` mode the array is exactly the one computed
from `lon_first` and the increment with no transformation. -/
theorem c9_longitude_normalisation (grid : GridTemplate0) :
    (∀ x ∈ getDataLng grid .zeroTo360, 0 ≤ x ∧ x < 360) ∧
    (∀ x ∈ getDataLng grid .neg180To180, -180 < x ∧ x ≤ 180) ∧
    getDataLng grid .preserve = lngArray grid := by
  refine ⟨?_, ?_, rfl⟩
  · intro x hx
    obtain ⟨y, _, rfl⟩ := List.mem_map.mp hx
    exact norm0360_range y
  · intro x hx
    obtain ⟨y, _, rfl⟩ := List.mem_map.mp hx
    exact norm180_range y

/-- C9 (witness): for the one-point grid at longitude -10 with unit
increment, 0-360 normalisation produces 350, which lies in `[0, 360)`. -/
theorem c9_longitude_normalisation_witness : (0 : ℚ) ≤ 350 ∧ (350 : ℚ) < 360 := by
  have happ := (c9_longitude_normalisation
    { ni := 1, nj := 1, longitudeOfFirstGridPoint := -10, iDirectionIncrement := 1 }).1
  apply happ 350
  have h1 : lngArray
      { ni := 1, nj := 1, longitudeOfFirstGridPoint := -10, iDirectionIncrement := 1 } =
      [-10] := by
    simp [lngArray, iMultiplier, List.range_succ]
  have h2 : norm0360 (-10) = 350 := by
    rw [norm0360, sub360]
    norm_num
    rw [add360]
    norm_num
    rw [add360]
    norm_num
  show (350 : ℚ) ∈ normalizeLngs .zeroTo360 (lngArray _)
  rw [h1]
  show (350 : ℚ) ∈ [norm0360 (-10)]
  rw [h2]
  exact List.mem_singleton.mpr rfl

theorem flatMapRange_length {α : Type} (b : Nat) (f : Nat → Nat → α) :
    ∀ a, ((List.range a).flatMap fun j => (List.range b).map (f j)).length = a * b := by
  intro a
  induction a with
  | zero => simp
  | succ k ih =>
    rw [List.range_succ, List.flatMap_append]
    simp only [List.length_append, ih, List.flatMap_cons, List.flatMap_nil, List.append_nil,
      List.length_map, List.length_range]
    ring

theorem flatMapRange_getD {α : Type} (b : Nat) (f : Nat → Nat → α) (d : α) :
    ∀ (a j i : Nat), j < a → i < b →
      ((List.range a).flatMap fun j => (List.range b).map (f j)).getD (j * b + i) d = f j i := by
  intro a
  induction a with
  | zero => intro j i hj hi; omega
  | succ k ih =>
    intro j i hj hi
    rw [List.range_succ, List.flatMap_append]
    by_cases hjk : j < k
    · have hlen : ((List.range k).flatMap fun j => (List.range b).map (f j)).length = k * b :=
        flatMapRange_length b f k
      have hidx : j * b + i < k * b := by
        calc j * b + i < j * b + b := by omega
        _ = (j + 1) * b := by ring
        _ ≤ k * b := Nat.mul_le_mul_right b hjk
      rw [List.getD_eq_getElem _ _ (by simp [List.length_append, hlen]; omega),
        List.getElem_append_left (by omega)]
      rw [← List.getD_eq_getElem _ d (by omega)]
      exact ih j i hjk hi
    · have hjeq : j = k := by omega
      subst hjeq
      have hlen : ((List.range j).flatMap fun j => (List.range b).map (f j)).length = j * b :=
        flatMapRange_length b f j
      have hlen2 : (((List.range j).flatMap fun j => (List.range b).map (f j)) ++
          [j].flatMap fun j => (List.range b).map (f j)).length = j * b + b := by
        simp [List.length_append, hlen]
      rw [List.getD_eq_getElem _ _ (by omega), List.getElem_append_right (by omega)]
      simp only [hlen, List.flatMap_cons, List.flatMap_nil, List.append_nil]
      rw [List.getElem_map, List.getElem_range]
      congr 1
      omega

theorem foldl_min_le_init (x : ℚ) (l : List ℚ) : l.foldl min x ≤ x := by
  induction l generalizing x with
  | nil => exact le_rfl
  | cons z zs ih =>
    show zs.foldl min (min x z) ≤ x
    exact le_trans (ih (min x z)) (min_le_left x z)

theorem foldl_min_le_mem (y : ℚ) (l : List ℚ) (h : y ∈ l) :
    ∀ x : ℚ, l.foldl min x ≤ y := by
  induction l with
  | nil => simp at h
  | cons z zs ih =>
    intro x
    rcases List.mem_cons.mp h with h1 | h1
    · subst h1
      exact le_trans (foldl_min_le_init (min x y) zs) (min_le_right x y)
    · exact ih h1 (min x z)

theorem le_foldl_min (m : ℚ) (l : List ℚ) (h : ∀ y ∈ l, m ≤ y) :
    ∀ x : ℚ, m ≤ x → m ≤ l.foldl min x := by
  induction l with
  | nil => intro x hx; exact hx
  | cons z zs ih =>
    intro x hx
    exact ih (fun y hy => h y (by simp [hy])) (min x z) (le_min hx (h z (by simp)))

theorem le_foldl_max_init (x : ℚ) (l : List ℚ) : x ≤ l.foldl max x := by
  induction l generalizing x with
  | nil => exact le_rfl
  | cons z zs ih =>
    show x ≤ zs.foldl max (max x z)
    exact le_trans (le_max_left x z) (ih (max x z))

theorem le_foldl_max_mem (y : ℚ) (l : List ℚ) (h : y ∈ l) :
    ∀ x : ℚ, y ≤ l.foldl max x := by
  induction l with
  | nil => simp at h
  | cons z zs ih =>
    intro x
    rcases List.mem_cons.mp h with h1 | h1
    · subst h1
      exact le_trans (le_max_right x y) (le_foldl_max_init (max x y) zs)
    · exact ih h1 (max x z)

theorem foldl_max_le (m : ℚ) (l : List ℚ) (h : ∀ y ∈ l, y ≤ m) :
    ∀ x : ℚ, x ≤ m → l.foldl max x ≤ m := by
  induction l with
  | nil => intro x hx; exact hx
  | cons z zs ih =>
    intro x hx
    exact ih (fun y hy => h y (by simp [hy])) (max x z) (max_le hx (h z (by simp)))

theorem listMinD_eq (l : List ℚ) (m : ℚ) (hm : m ∈ l) (h : ∀ y ∈ l, m ≤ y) :
    listMinD l = m := by
  match l, hm with
  | x :: xs, hm =>
    show xs.foldl min x = m
    apply le_antisymm
    · rcases List.mem_cons.mp hm with h1 | h1
      · subst h1
        exact foldl_min_le_init m xs
      · exact foldl_min_le_mem m xs h1 x
    · exact le_foldl_min m xs (fun y hy => h y (by simp [hy])) x (h x (by simp))

theorem listMaxD_eq (l : List ℚ) (m : ℚ) (hm : m ∈ l) (h : ∀ y ∈ l, y ≤ m) :
    listMaxD l = m := by
  match l, hm with
  | x :: xs, hm =>
    show xs.foldl max x = m
    apply le_antisymm
    · exact foldl_max_le m xs (fun y hy => h y (by simp [hy])) x (h x (by simp))
    · rcases List.mem_cons.mp hm with h1 | h1
      · subst h1
        exact le_foldl_max_init m xs
      · exact le_foldl_max_mem m xs h1 x

theorem latArray_bounds (g : GridTemplate0) (hj : g.scanningMode &&& 64 ≠ 0)
    (hji : 0 ≤ g.jDirectionIncrement) (hni : 0 < g.ni) (hnj : 0 < g.nj) :
    listMinD (latArray g) = g.latitudeOfFirstGridPoint ∧
    listMaxD (latArray g) = g.latitudeOfFirstGridPoint +
      ((g.nj : ℚ) - 1) * g.jDirectionIncrement := by
  have hjm : jMultiplier g = 1 := by simp [jMultiplier, hj]
  constructor
  · apply listMinD_eq
    · simp only [latArray, hjm, List.mem_flatMap, List.mem_map, List.mem_range]
      exact ⟨0, hnj, 0, hni, by ring⟩
    · intro y hy
      simp only [latArray, hjm, List.mem_flatMap, List.mem_map, List.mem_range] at hy
      obtain ⟨j, hjlt, i, hilt, rfl⟩ := hy
      have h1 : (0 : ℚ) ≤ (j : ℚ) * g.jDirectionIncrement := by positivity
      linarith
  · apply listMaxD_eq
    · simp only [latArray, hjm, List.mem_flatMap, List.mem_map, List.mem_range]
      refine ⟨g.nj - 1, by omega, 0, hni, ?_⟩
      rw [Nat.cast_sub (by omega : 1 ≤ g.nj)]
      ring
    · intro y hy
      simp only [latArray, hjm, List.mem_flatMap, List.mem_map, List.mem_range] at hy
      obtain ⟨j, hjlt, i, hilt, rfl⟩ := hy
      have h1 : (j : ℚ) ≤ (g.nj : ℚ) - 1 := by
        have h2 : ((j + 1 : ℕ) : ℚ) ≤ ((g.nj : ℕ) : ℚ) := by
          exact_mod_cast Nat.succ_le_of_lt hjlt
        push_cast at h2
        linarith
      have h3 : (j : ℚ) * g.jDirectionIncrement ≤ ((g.nj : ℚ) - 1) * g.jDirectionIncrement :=
        mul_le_mul_of_nonneg_right h1 hji
      linarith

theorem lngArray_mem_iff (g : GridTemplate0) (x : ℚ) (hnj : 0 < g.nj) :
    x ∈ lngArray g ↔ ∃ i, i < g.ni ∧
      x = g.longitudeOfFirstGridPoint + (i : ℚ) * g.iDirectionIncrement * iMultiplier g := by
  constructor
  · intro hx
    obtain ⟨j, hj1, hx2⟩ := List.mem_flatMap.mp hx
    obtain ⟨i, hi1, rfl⟩ := List.mem_map.mp hx2
    exact ⟨i, List.mem_range.mp hi1, rfl⟩
  · rintro ⟨i, hi1, rfl⟩
    exact List.mem_flatMap.mpr ⟨0, List.mem_range.mpr hnj,
      List.mem_map.mpr ⟨i, List.mem_range.mpr hi1, rfl⟩⟩

theorem lngArray_bounds (g : GridTemplate0) (hi : g.scanningMode &&& 128 = 0)
    (hii : 0 ≤ g.iDirectionIncrement) (hni : 0 < g.ni) (hnj : 0 < g.nj) :
    listMinD (lngArray g) = g.longitudeOfFirstGridPoint ∧
    listMaxD (lngArray g) = g.longitudeOfFirstGridPoint +
      ((g.ni : ℚ) - 1) * g.iDirectionIncrement := by
  have him : iMultiplier g = 1 := by simp [iMultiplier, hi]
  constructor
  · apply listMinD_eq
    · exact (lngArray_mem_iff g _ hnj).mpr ⟨0, hni, by ring⟩
    · intro y hy
      obtain ⟨i, hilt, rfl⟩ := (lngArray_mem_iff g _ hnj).mp hy
      rw [him]
      have h1 : (0 : ℚ) ≤ (i : ℚ) * g.iDirectionIncrement :=
        mul_nonneg (by positivity) hii
      linarith
  · apply listMaxD_eq
    · apply (lngArray_mem_iff g _ hnj).mpr
      refine ⟨g.ni - 1, by omega, ?_⟩
      rw [him, Nat.cast_sub (by omega : 1 ≤ g.ni)]
      ring
    · intro y hy
      obtain ⟨i, hilt, rfl⟩ := (lngArray_mem_iff g _ hnj).mp hy
      rw [him]
      have h1 : (i : ℚ) ≤ (g.ni : ℚ) - 1 := by
        have h2 : ((i + 1 : ℕ) : ℚ) ≤ ((g.ni : ℕ) : ℚ) := by
          exact_mod_cast Nat.succ_le_of_lt hilt
        push_cast at h2
        linarith
      have h3 : (i : ℚ) * g.iDirectionIncrement ≤ ((g.ni : ℚ) - 1) * g.iDirectionIncrement :=
        mul_le_mul_of_nonneg_right h1 hii
      linarith

theorem bilinear_at_node (d : DataView) (i j : ℕ)
    (hii : 0 < d.grid.lngIncrement) (hji : 0 < d.grid.latIncrement)
    (hmm : d.grid.latMin ≤ d.grid.latMax)
    (hlat_in : d.grid.latMin + (j : ℚ) * d.grid.latIncrement ≤ d.grid.latMax)
    (hlng_in : d.grid.lngMin + (i : ℚ) * d.grid.lngIncrement ≤ d.grid.lngMax) :
    bilinearInterpolate d (d.grid.latMin + (j : ℚ) * d.grid.latIncrement)
      (d.grid.lngMin + (i : ℚ) * d.grid.lngIncrement) =
      some (d.param.getD (j * d.grid.ni + i) 0) := by
  have hjnn : (0 : ℚ) ≤ (j : ℚ) * d.grid.latIncrement := by positivity
  have hinn : (0 : ℚ) ≤ (i : ℚ) * d.grid.lngIncrement := by positivity
  have hcond : ¬(d.grid.latMin + (j : ℚ) * d.grid.latIncrement <
        min d.grid.latMin d.grid.latMax ∨
      max d.grid.latMin d.grid.latMax < d.grid.latMin + (j : ℚ) * d.grid.latIncrement ∨
      d.grid.lngMin + (i : ℚ) * d.grid.lngIncrement < d.grid.lngMin ∨
      d.grid.lngMax < d.grid.lngMin + (i : ℚ) * d.grid.lngIncrement) := by
    rw [min_eq_left hmm, max_eq_right hmm]
    push_neg
    exact ⟨by linarith, hlat_in, by linarith, hlng_in⟩
  have e1 : (d.grid.lngMin + (i : ℚ) * d.grid.lngIncrement - d.grid.lngMin) /
      d.grid.lngIncrement = (i : ℚ) := by
    field_simp
  have e2 : (d.grid.latMin + (j : ℚ) * d.grid.latIncrement - d.grid.latMin) /
      d.grid.latIncrement = (j : ℚ) := by
    field_simp
  unfold bilinearInterpolate
  rw [if_neg hcond]
  simp only [e1, e2, Int.floor_natCast]
  have ewx : (i : ℚ) - ((i : ℤ) : ℚ) = 0 := by push_cast; ring
  have ewy : (j : ℚ) - ((j : ℤ) : ℚ) = 0 := by push_cast; ring
  rw [ewx, ewy]
  have eidx : (((j : ℤ) * d.grid.ni + (i : ℤ)).toNat) = j * d.grid.ni + i := by
    rw [show (j : ℤ) * d.grid.ni + (i : ℤ) = ((j * d.grid.ni + i : ℕ) : ℤ) from by push_cast; ring]
    exact Int.toNat_natCast _
  rw [eidx]
  congr 1
  ring

/-- C5 (amended): bilinear identity at grid nodes for template-0 grids whose
scanning mode has i scanning positively (bit 0x80 clear) and j scanning
positively (bit 0x40 set), with positive increments and `preserve` longitude
mode: for every grid index `k`, interpolating the `getData` view at
`(lat[k], lng[k])` returns exactly the parameter value at `k` (so in
particular within any tolerance).  For other scanning modes the identity
fails - see the counterexample. -/
theorem c5_bilinear_identity (grid : GridTemplate0) (param : List ℚ) (k : Nat)
    (hiPos : grid.scanningMode &&& 128 = 0)
    (hjPos : grid.scanningMode &&& 64 ≠ 0)
    (hiInc : 0 < grid.iDirectionIncrement)
    (hjInc : 0 < grid.jDirectionIncrement)
    (hk : k < grid.ni * grid.nj) :
    bilinearInterpolate (mkDataView grid .preserve param)
      ((latArray grid).getD k 0) ((getDataLng grid .preserve).getD k 0) =
      some (param.getD k 0) := by
  have hni : 0 < grid.ni := by
    rcases Nat.eq_zero_or_pos grid.ni with h | h
    · rw [h] at hk; simp at hk
    · exact h
  have hnj : 0 < grid.nj := by
    rcases Nat.eq_zero_or_pos grid.nj with h | h
    · rw [h] at hk; simp at hk
    · exact h
  have hjm : jMultiplier grid = 1 := by simp [jMultiplier, hjPos]
  have him : iMultiplier grid = 1 := by simp [iMultiplier, hiPos]
  have hjlt : k / grid.ni < grid.nj :=
    (Nat.div_lt_iff_lt_mul hni).mpr (by rw [mul_comm] at hk; exact hk)
  have hilt : k % grid.ni < grid.ni := Nat.mod_lt _ hni
  have hk2 : (k / grid.ni) * grid.ni + k % grid.ni = k := by
    rw [mul_comm]
    exact Nat.div_add_mod k grid.ni
  obtain ⟨hlatmin, hlatmax⟩ := latArray_bounds grid hjPos (le_of_lt hjInc) hni hnj
  obtain ⟨hlngmin, hlngmax⟩ := lngArray_bounds grid hiPos (le_of_lt hiInc) hni hnj
  have hlat : (latArray grid).getD k 0 =
      grid.latitudeOfFirstGridPoint + ((k / grid.ni : ℕ) : ℚ) * grid.jDirectionIncrement := by
    conv_lhs => rw [← hk2]
    unfold latArray
    rw [flatMapRange_getD grid.ni _ 0 grid.nj _ _ hjlt hilt, hjm]
    ring
  have hlng : (getDataLng grid .preserve).getD k 0 =
      grid.longitudeOfFirstGridPoint + ((k % grid.ni : ℕ) : ℚ) * grid.iDirectionIncrement := by
    show (lngArray grid).getD k 0 = _
    conv_lhs => rw [← hk2]
    unfold lngArray
    rw [flatMapRange_getD grid.ni _ 0 grid.nj _ _ hjlt hilt, him]
    ring
  have hgm : (mkDataView grid .preserve param).grid =
      { ni := grid.ni, nj := grid.nj,
        latMin := grid.latitudeOfFirstGridPoint,
        latMax := grid.latitudeOfFirstGridPoint +
          ((grid.nj : ℚ) - 1) * grid.jDirectionIncrement,
        lngMin := grid.longitudeOfFirstGridPoint,
        lngMax := grid.longitudeOfFirstGridPoint +
          ((grid.ni : ℚ) - 1) * grid.iDirectionIncrement,
        latIncrement := grid.jDirectionIncrement,
        lngIncrement := grid.iDirectionIncrement } := by
    show mkGridMeta grid (latArray grid) (getDataLng grid .preserve) = _
    show mkGridMeta grid (latArray grid) (lngArray grid) = _
    unfold mkGridMeta
    rw [hlatmin, hlatmax, hlngmin, hlngmax]
  have hjle : ((k / grid.ni : ℕ) : ℚ) ≤ (grid.nj : ℚ) - 1 := by
    have h2 : ((k / grid.ni + 1 : ℕ) : ℚ) ≤ ((grid.nj : ℕ) : ℚ) := by
      exact_mod_cast Nat.succ_le_of_lt hjlt
    push_cast at h2
    linarith
  have hile : ((k % grid.ni : ℕ) : ℚ) ≤ (grid.ni : ℚ) - 1 := by
    have h2 : ((k % grid.ni + 1 : ℕ) : ℚ) ≤ ((grid.ni : ℕ) : ℚ) := by
      exact_mod_cast Nat.succ_le_of_lt hilt
    push_cast at h2
    linarith
  have hnode := bilinear_at_node (mkDataView grid .preserve param)
    (k % grid.ni) (k / grid.ni)
    (by rw [hgm]; exact hiInc) (by rw [hgm]; exact hjInc)
    (by
      rw [hgm]
      have h1 : (0 : ℚ) ≤ ((grid.nj : ℚ) - 1) * grid.jDirectionIncrement := by
        have : (1 : ℚ) ≤ (grid.nj : ℚ) := by exact_mod_cast hnj
        nlinarith
      simp only
      linarith)
    (by
      rw [hgm]
      simp only
      nlinarith [hjle, hjInc.le, mul_le_mul_of_nonneg_right hjle hjInc.le])
    (by
      rw [hgm]
      simp only
      nlinarith [mul_le_mul_of_nonneg_right hile hiInc.le])
  rw [hgm] at hnode
  simp only at hnode
  rw [hlat, hlng]
  rw [hnode, hk2]
  rfl

/-- C5 (witness for the amended theorem): on the 2x2 unit grid with scanning
mode 0x40 (W→E, S→N), interpolation at the last node returns exactly the last
parameter value. -/
theorem c5_bilinear_identity_witness :
    bilinearInterpolate
      (mkDataView
        { ni := 2, nj := 2, latitudeOfFirstGridPoint := 0, longitudeOfFirstGridPoint := 0,
          iDirectionIncrement := 1, jDirectionIncrement := 1, scanningMode := 64 }
        .preserve [1, 2, 3, 4])
      ((latArray
        { ni := 2, nj := 2, latitudeOfFirstGridPoint := 0, longitudeOfFirstGridPoint := 0,
          iDirectionIncrement := 1, jDirectionIncrement := 1, scanningMode := 64 }).getD 3 0)
      ((getDataLng
        { ni := 2, nj := 2, latitudeOfFirstGridPoint := 0, longitudeOfFirstGridPoint := 0,
          iDirectionIncrement := 1, jDirectionIncrement := 1, scanningMode := 64 }
        .preserve).getD 3 0) =
      some (([1, 2, 3, 4] : List ℚ).getD 3 0) :=
  c5_bilinear_identity _ [1, 2, 3, 4] 3 (by decide) (by decide) (by norm_num) (by norm_num)
    (by decide)

/-- C5 (counterexample): with the standard scanning mode 0 (W→E, N→S) on a
1x2 grid - `lat_first = 10`, `j_increment = 10`, decoded field `[1, 2]` -
interpolating at grid node 0 (`lat = 10`, `lng = 0`) returns the value 2 of
the other node, not the node's own value 1, and the difference 1 far exceeds
the claimed 1e-5 tolerance: the interpolator indexes rows from `lat_min`
upward while the array is stored north-to-south. -/
theorem c5_counterexample :
    bilinearInterpolate
      (mkDataView
        { ni := 1, nj := 2, latitudeOfFirstGridPoint := 10, longitudeOfFirstGridPoint := 0,
          iDirectionIncrement := 1, jDirectionIncrement := 10, scanningMode := 0 }
        .preserve [1, 2])
      ((latArray
        { ni := 1, nj := 2, latitudeOfFirstGridPoint := 10, longitudeOfFirstGridPoint := 0,
          iDirectionIncrement := 1, jDirectionIncrement := 10, scanningMode := 0 }).getD 0 0)
      ((getDataLng
        { ni := 1, nj := 2, latitudeOfFirstGridPoint := 10, longitudeOfFirstGridPoint := 0,
          iDirectionIncrement := 1, jDirectionIncrement := 10, scanningMode := 0 }
        .preserve).getD 0 0) = some 2 ∧
    ([1, 2] : List ℚ).getD 0 0 = 1 ∧ ¬ |(2 : ℚ) - 1| ≤ 1 / 100000 := by
  refine ⟨?_, by norm_num, by norm_num⟩
  have hlat : latArray
      { ni := 1, nj := 2, latitudeOfFirstGridPoint := 10, longitudeOfFirstGridPoint := 0,
        iDirectionIncrement := 1, jDirectionIncrement := 10, scanningMode := 0 } =
      [10, 0] := by
    norm_num [latArray, jMultiplier, List.range_succ]
  have hlng : lngArray
      { ni := 1, nj := 2, latitudeOfFirstGridPoint := 10, longitudeOfFirstGridPoint := 0,
        iDirectionIncrement := 1, jDirectionIncrement := 10, scanningMode := 0 } =
      [0, 0] := by
    norm_num [lngArray, iMultiplier, List.range_succ]
  have hdv : mkDataView
      { ni := 1, nj := 2, latitudeOfFirstGridPoint := 10, longitudeOfFirstGridPoint := 0,
        iDirectionIncrement := 1, jDirectionIncrement := 10, scanningMode := 0 }
      .preserve [1, 2] =
      { lat := [10, 0], lng := [0, 0],
        grid :=
          { ni := 1, nj := 2, latMin := 0, latMax := 10, lngMin := 0, lngMax := 0,
            latIncrement := 10, lngIncrement := 1 },
        param := [1, 2] } := by
    unfold mkDataView mkGridMeta
    rw [show getDataLng
        { ni := 1, nj := 2, latitudeOfFirstGridPoint := 10, longitudeOfFirstGridPoint := 0,
          iDirectionIncrement := 1, jDirectionIncrement := 10, scanningMode := 0 }
        .preserve = lngArray
        { ni := 1, nj := 2, latitudeOfFirstGridPoint := 10, longitudeOfFirstGridPoint := 0,
          iDirectionIncrement := 1, jDirectionIncrement := 10, scanningMode := 0 } from rfl,
      hlat, hlng]
    norm_num [listMinD, listMaxD]
  rw [show getDataLng
      { ni := 1, nj := 2, latitudeOfFirstGridPoint := 10, longitudeOfFirstGridPoint := 0,
        iDirectionIncrement := 1, jDirectionIncrement := 10, scanningMode := 0 }
      .preserve = lngArray
      { ni := 1, nj := 2, latitudeOfFirstGridPoint := 10, longitudeOfFirstGridPoint := 0,
        iDirectionIncrement := 1, jDirectionIncrement := 10, scanningMode := 0 } from rfl,
    hdv, hlat, hlng]
  norm_num [bilinearInterpolate, List.getD]

theorem ecmaAtan2_bounds (y x : JsVal) :
    -Real.pi ≤ ecmaAtan2 y x ∧ ecmaAtan2 y x ≤ Real.pi := by
  have hpi := Real.pi_pos
  unfold ecmaAtan2
  split
  case isTrue h =>
    split
    case isTrue h1 => constructor <;> linarith
    case isFalse h1 => split <;> constructor <;> linarith
  case isFalse h =>
    split
    case isTrue h1 => split <;> constructor <;> linarith
    case isFalse h1 =>
      split
      case isTrue h3 =>
        have hb1 := Real.neg_pi_div_two_lt_arctan (y.val / x.val)
        have hb2 := Real.arctan_lt_pi_div_two (y.val / x.val)
        constructor <;> linarith
      case isFalse h3 =>
        have hx : x.val < 0 := lt_of_le_of_ne (not_lt.mp h3) h1
        split
        case isTrue h4 =>
          have h5 : y.val / x.val < 0 := div_neg_of_pos_of_neg h4 hx
          have h6 : Real.arctan (y.val / x.val) < 0 := by
            have h7 := Real.arctan_strictMono h5
            rwa [Real.arctan_zero] at h7
          have hb1 := Real.neg_pi_div_two_lt_arctan (y.val / x.val)
          constructor <;> linarith
        case isFalse h4 =>
          have hy : y.val < 0 := lt_of_le_of_ne (not_lt.mp h4) h
          have h5 : 0 < y.val / x.val := div_pos_of_neg_of_neg hy hx
          have h6 : 0 < Real.arctan (y.val / x.val) := by
            have h7 := Real.arctan_strictMono h5
            rwa [Real.arctan_zero] at h7
          have hb2 := Real.arctan_lt_pi_div_two (y.val / x.val)
          constructor <;> linarith

/-- C6 (amended): for all wind components the computed `wind_dir` value - the
ECMAScript `atan2(-u, -v) * 180 / π` with 360 added when negative - lies in
`[0, 360)`; at calm points the direction is 180, not 0 (see the
counterexample), because the negation of the stored positive zeros gives
`atan2(-0, -0) = -π`. -/
theorem c6_wind_direction_range (u v : JsVal) :
    0 ≤ windDir u v ∧ windDir u v < 360 := by
  have hpi := Real.pi_pos
  obtain ⟨hlo, hhi⟩ := ecmaAtan2_bounds (negJs u) (negJs v)
  unfold windDir
  set a := ecmaAtan2 (negJs u) (negJs v) with ha
  have hd1 : a * 180 / Real.pi ≤ 180 := by
    rw [div_le_iff₀ hpi]
    nlinarith
  have hd2 : -180 ≤ a * 180 / Real.pi := by
    rw [le_div_iff₀ hpi]
    nlinarith
  show (0 ≤ if a * 180 / Real.pi < 0 then a * 180 / Real.pi + 360 else a * 180 / Real.pi) ∧
    ((if a * 180 / Real.pi < 0 then a * 180 / Real.pi + 360 else a * 180 / Real.pi) < 360)
  constructor
  · split <;> linarith
  · split <;> linarith

/-- C6 (counterexample): at a point where both stored wind components are
(positive) zero, the computed direction is 180, not 0: JavaScript negation
produces negative zeros and ECMAScript fixes `atan2(-0, -0) = -π`, which
normalises to 180. -/
theorem c6_counterexample :
    windDir ⟨0, false⟩ ⟨0, false⟩ = 180 ∧ (180 : ℝ) ≠ 0 := by
  constructor
  · have h1 : negJs ⟨0, false⟩ = ⟨0, true⟩ := by
      unfold negJs
      norm_num
    have h2 : ecmaAtan2 ⟨0, true⟩ ⟨0, true⟩ = -Real.pi := by
      unfold ecmaAtan2
      norm_num
    unfold windDir
    rw [h1, h2, show -Real.pi * 180 / Real.pi = -180 from by
      rw [div_eq_iff Real.pi_ne_zero]
      ring]
    norm_num
  · norm_num
